import Mathlib

/-!
Verification of the index-updating script of the DSA repository
(`.github/scripts/update_index_md.py`).

The script rewrites two marked regions of markdown files from a JSON log of
contributions: a contributors table and a hierarchical table of contents.
This file gives a shallow embedding of the script:

* a file is a `List String` of its lines (as read by `readlines`, each line
  keeps its trailing newline);
* the parsed JSON log is a `List (String × Details)` in insertion order
  (Python dicts preserve insertion order);
* Python's `list[a:b] = x` slice assignment is `py_slice_assign`;
* Python's substring test `marker in line` is `strIn`;
* Python's whitespace `str.split()` is `pySplit`;
* `exit(n)` and the uncaught `KeyError` / `TypeError` exceptions the script
  can raise are modelled with `Except`.
-/

/-- The space character, written via its code point. -/
def spaceChar : Char := Char.ofNat 32

/-- The whitespace set of CPython's no-argument `str.split()` (characters of
Unicode category Zs together with bidirectional classes WS, B and S, as
generated by `makeunicodedata.py`): tab through carriage return (9-13), the
information separators 28-31, space, next line (U+0085), no-break space
(U+00A0), Ogham space mark (U+1680), the typographic spaces U+2000-U+200A,
line separator (U+2028), paragraph separator (U+2029), narrow no-break space
(U+202F), medium mathematical space (U+205F) and ideographic space (U+3000). -/
def pyIsSpace (c : Char) : Bool :=
  (9 ≤ c.toNat && c.toNat ≤ 13) || (28 ≤ c.toNat && c.toNat ≤ 31) ||
  c.toNat = 32 || c.toNat = 0x85 || c.toNat = 0xA0 || c.toNat = 0x1680 ||
  (0x2000 ≤ c.toNat && c.toNat ≤ 0x200A) || c.toNat = 0x2028 || c.toNat = 0x2029 ||
  c.toNat = 0x202F || c.toNat = 0x205F || c.toNat = 0x3000

/-- Python's substring containment `marker in line`. -/
def strIn (marker line : String) : Bool :=
  line.data.tails.any fun t => marker.data.isPrefixOf t

/-- Python's `sep.join(words)`. -/
def pyJoin (sep : String) : List String → String
  | [] => ""
  | [w] => w
  | w :: ws => w ++ sep ++ pyJoin sep ws

/-- Worker for `pySplit`: `acc` holds the reversed characters of the word
currently being read. -/
def pySplitChars : List Char → List Char → List (List Char)
  | [], acc => if acc.isEmpty then [] else [acc.reverse]
  | c :: cs, acc =>
    if pyIsSpace c then
      if acc.isEmpty then pySplitChars cs []
      else acc.reverse :: pySplitChars cs []
    else pySplitChars cs (c :: acc)

/-- Python's no-argument `str.split()`: split on runs of whitespace, dropping
leading and trailing whitespace and never producing empty words. -/
def pySplit (s : String) : List String :=
  (pySplitChars s.data []).map fun w => String.mk w

/-- Python's `l[a:b] = x` slice assignment for non-negative indices: the slice
`l[a:b]` (empty and positioned at `min a (length l)` when `a ≥ b`) is replaced
by `x`. -/
def py_slice_assign (l : List α) (a b : Nat) (x : List α) : List α :=
  let a' := min a l.length
  let b' := max a' (min b l.length)
  l.take a' ++ x ++ l.drop b'

/-- Begin marker of the contributors table. -/
def CONTRIBUTORS_BEGIN : String := "<!-- TABLE OF CONTRIBUTORS BEGINS -->"

/-- End marker of the contributors table. -/
def CONTRIBUTORS_END : String := "<!-- TABLE OF CONTRIBUTORS ENDS -->"

/-- Begin marker of the table of contents. -/
def CONTENT_BEGIN : String := "<!-- TABLE OF CONTENT BEGINS -->"

/-- End marker of the table of contents. -/
def CONTENT_END : String := "<!-- TABLE OF CONTENT ENDS -->"

/-- The marker-scanning loop of `find_table_points`: `i` is the index of the
next line, `s`/`e` the starting and ending points found so far.  The first
line containing the begin marker (while none was found) sets `s`; otherwise
(`elif`) the first line containing the end marker sets `e`; the loop breaks
once both are set. -/
def find_markers (sm em : String) :
    List String → Nat → Option Nat → Option Nat → Option Nat × Option Nat
  | [], _, s, e => (s, e)
  | line :: rest, i, s, e =>
    let hitStart := s.isNone && strIn sm line
    let s' := if hitStart then some i else s
    let e' := if !hitStart && e.isNone && strIn em line then some i else e
    if s'.isSome && e'.isSome then (s', e')
    else find_markers sm em rest (i + 1) s' e'

/-- The begin/end marker pair selected by `find_table_points` for a given
`search_type`; `none` for an invalid argument. -/
def markers_for (search_type : String) : Option (String × String) :=
  if search_type = "contributors" then some (CONTRIBUTORS_BEGIN, CONTRIBUTORS_END)
  else if search_type = "table-of-content" then some (CONTENT_BEGIN, CONTENT_END)
  else none

/-- `find_table_points`: locate the begin/end marker lines of the requested
table.  `exit(1)` for an invalid `search_type`, `exit(2)` when a marker is
missing, `exit(3)` when the begin point is not strictly before the end point. -/
def find_table_points (lines : List String) (search_type : String) :
    Except Nat (Nat × Nat) :=
  match markers_for search_type with
  | none => .error 1
  | some (sm, em) =>
    match find_markers sm em lines 0 none none with
    | (some s, some e) => if s ≥ e then .error 3 else .ok (s, e)
    | _ => .error 2

/-- One value of the contributors log: the fields of a record, the record's
title being the key it is stored under. -/
structure Details where
  core : String
  specificity : String
  contributor_name : List String
  pull_request_number : List Nat
  demo_path : String
deriving DecidableEq

/-- An uncaught Python exception of the script. -/
inductive PyError where
  | keyError : String → PyError
  | typeError : PyError
deriving DecidableEq, Repr

/-- A fatal outcome of one file update: an explicit `exit(n)` or an uncaught
exception. -/
inductive UpdateError where
  | exitCode : Nat → UpdateError
  | pyError : PyError → UpdateError
deriving DecidableEq, Repr

/-- Decidable equality of update outcomes, for evaluating the embedding on
concrete inputs. -/
instance {e a : Type} [DecidableEq e] [DecidableEq a] : DecidableEq (Except e a) :=
  fun x y =>
  match x, y with
  | .error e1, .error e2 => decidable_of_iff (e1 = e2) (by simp)
  | .error _, .ok _ => isFalse (by simp)
  | .ok _, .error _ => isFalse (by simp)
  | .ok v1, .ok v2 => decidable_of_iff (v1 = v2) (by simp)

/-- The contributor-names cell: each name rendered as a profile link, joined
by comma-space in list order. -/
def contributors_names_output (names : List String) : String :=
  pyJoin ", " (names.map fun name =>
    "[" ++ name ++ "](https://github.com/" ++ name ++ " \"goto " ++ name ++ " profile\")")

/-- The core-contribution cell: a link, except that the literal `Repo` stays
plain text. -/
def core_contribution_output (core : String) : String :=
  if core ≠ "Repo" then "[" ++ core ++ "](" ++ core ++ " \"goto " ++ core ++ "\")"
  else "Repo"

/-- The pull-requests cell: each number rendered as a PR link embedding the
repository name, joined by comma-space in list order. -/
def pull_requests_output (repo : String) (prs : List Nat) : String :=
  pyJoin ", " (prs.map fun pr =>
    "[#" ++ toString pr ++ "](https://github.com/" ++ repo ++ "/pull/" ++ toString pr ++
    " \"visit pr \\#" ++ toString pr ++ "\")")

/-- The link target of the demo cell: when the path contains a space it is
`'%20'.join(demo_path.split())`, otherwise the raw path. -/
def demo_path_target (demo_path : String) : String :=
  if demo_path.data.elem spaceChar then pyJoin "%20" (pySplit demo_path)
  else demo_path

/-- The demo cell: label derived from core and specificity, with the four
reserved pseudo-titles overriding the label; the target is `demo_path_target`. -/
def demo_path_output (repo title core specificity demo_path : String) : String :=
  let demo := demo_path_target demo_path
  if title = "root" || title = "\x7binit\x7d" then
    "[/" ++ repo ++ "/](" ++ demo ++ " \"view the result of " ++ title ++ "\")"
  else if title = "\x7bworkflows\x7d" then
    "[/" ++ repo ++ "/.github/workflows](" ++ demo ++ " \"view the result of " ++ title ++ "\")"
  else if title = "\x7bscripts\x7d" then
    "[/" ++ repo ++ "/.github/scripts](" ++ demo ++ " \"view the result of " ++ title ++ "\")"
  else if title = "\x7bothers\x7d" then
    "[/" ++ repo ++ "/.github](" ++ demo ++ " \"view the result of " ++ title ++ "\")"
  else
    "[./" ++ core ++ "/" ++ specificity ++ "/](" ++ demo ++ " \"view the result of " ++ title ++ "\")"

/-- One data row of the contributors table; the core column is present only
in unfiltered mode. -/
def contributor_row (repo : String) (cond : Option (String → Bool))
    (title : String) (d : Details) : String :=
  let names_out := contributors_names_output d.contributor_name
  let core_out := core_contribution_output d.core
  let prs_out := pull_requests_output repo d.pull_request_number
  let demo_out := demo_path_output repo title d.core d.specificity d.demo_path
  if cond.isNone then
    "| " ++ title ++ " | " ++ core_out ++ " | " ++ names_out ++ " | " ++ prs_out ++
    " | " ++ demo_out ++ " |\n"
  else
    "| " ++ title ++ " | " ++ names_out ++ " | " ++ prs_out ++ " | " ++ demo_out ++ " |\n"

/-- Whether the filter keeps a record: `condition is None` keeps everything,
otherwise the record's core must satisfy the condition. -/
def row_is_included (cond : Option (String → Bool)) (d : Details) : Bool :=
  match cond with
  | some c => c d.core
  | none => true

/-- The loop of `update_table_of_contributors`: one row per record passing
the filter, in log order. -/
def contributors_rows (repo : String) (cond : Option (String → Bool)) :
    List (String × Details) → List String
  | [] => []
  | (title, d) :: rest =>
    if row_is_included cond d then
      contributor_row repo cond title d :: contributors_rows repo cond rest
    else contributors_rows repo cond rest

/-- The lines written into the contributors region: the rendered rows, or a
single placeholder row of dashes when no record passes the filter. -/
def contributors_updated_lines (repo : String) (cond : Option (String → Bool))
    (data : List (String × Details)) : List String :=
  let rows := contributors_rows repo cond data
  if rows.isEmpty then
    if cond.isNone then ["| - | - | - | - | - |\n"] else ["| - | - | - | - |\n"]
  else rows

/-- The header synthesised when the contributors region is empty: five
columns unfiltered, four when a filter is active. -/
def table_header (cond : Option (String → Bool)) : List String :=
  match cond with
  | none =>
    ["| Contribution Title | Core Contribution | Contributor Names | Pull Requests | Demo |\n",
     "| --- | --- | --- | --- | --- |\n"]
  | some _ =>
    ["| Contribution Title | Contributor Names | Pull Requests | Demo |\n",
     "| --- | --- | --- | --- |\n"]

/-- `update_table_of_contributors` on the lines of one file: locate the
markers, synthesise the header when the region is empty, then assign the
rendered rows to the slice `lines[start+3 : end]` (with `end` the marker
point computed before the header was inserted, exactly as the script does). -/
def update_table_of_contributors (repo : String) (cond : Option (String → Bool))
    (data : List (String × Details)) (lines : List String) :
    Except UpdateError (List String) :=
  match find_table_points lines "contributors" with
  | .error n => .error (.exitCode n)
  | .ok (s, e) =>
    let lines1 := if e - s = 1 then py_slice_assign lines (s + 1) e (table_header cond) else lines
    let rows := contributors_updated_lines repo cond data
    .ok (py_slice_assign lines1 (s + 3) e rows)

/-- The per-core grouping built by `update_table_of_content`: specificity to
either `None` (Python) or a list of extra titles, in insertion order. -/
abbrev Grouping := List (String × Option (List String))

/-- The full two-level outline: core category to its grouping, in the fixed
skeleton order. -/
abbrev Toc := List (String × Grouping)

/-- Lookup in a Python dict viewed as an insertion-ordered association list. -/
def assoc_lookup (k : String) : List (String × α) → Option α
  | [] => none
  | (k', v) :: rest => if k' = k then some v else assoc_lookup k rest

/-- Assignment `d[k] = v` to an existing key of a Python dict: the value is
replaced in place, insertion order unchanged. -/
def assoc_set (k : String) (v : α) : List (String × α) → List (String × α)
  | [] => []
  | (k', v') :: rest => if k' = k then (k', v) :: rest else (k', v') :: assoc_set k v rest

/-- The fixed outline skeleton `{ 'Theory': {}, 'Solved-Problems': {}, 'Repo': {} }`. -/
def toc_skeleton : Toc := [("Theory", []), ("Solved-Problems", []), ("Repo", [])]

/-- Processing one record of the grouping loop of `update_table_of_content`.
`table[core]` raises `KeyError` when the core is not a skeleton key.  A new
specificity key is appended with `None` when the title is the specificity
itself, else with `[title]`.  For an existing specificity the guard
`title not in table[core][specificity]` raises `TypeError` when the stored
value is `None`; otherwise an unseen title is appended. -/
def toc_insert (toc : Toc) (core specificity title : String) : Except PyError Toc :=
  match assoc_lookup core toc with
  | none => .error (.keyError core)
  | some g =>
    match assoc_lookup specificity g with
    | none =>
      .ok (assoc_set core
        (g ++ [(specificity, if specificity = title then none else some [title])]) toc)
    | some v =>
      if title ≠ specificity then
        match v with
        | none => .error .typeError
        | some l =>
          if title ∈ l then .ok toc
          else .ok (assoc_set core (assoc_set specificity (some (l ++ [title])) g) toc)
      else .ok toc

/-- The grouping loop over the log, starting from a given table. -/
def toc_group_from (g : Toc) : List (String × Details) → Except PyError Toc
  | [] => .ok g
  | (title, d) :: rest =>
    match toc_insert g d.core d.specificity title with
    | .error e => .error e
    | .ok g' => toc_group_from g' rest

/-- The grouping loop over the log, starting from the fixed skeleton. -/
def toc_group (data : List (String × Details)) : Except PyError Toc :=
  toc_group_from toc_skeleton data

/-- Stable insertion into a list sorted ascending by `<` on strings. -/
def insert_sorted_str (x : String) : List String → List String
  | [] => [x]
  | y :: ys => if decide (x < y) then x :: y :: ys else y :: insert_sorted_str x ys

/-- Python `list.sort()` on strings: sort ascending lexicographically. -/
def py_sorted_strings (l : List String) : List String :=
  l.foldr insert_sorted_str []

/-- Stable insertion of a grouping entry into a list sorted by key. -/
def insert_sorted_entry (x : String × Option (List String)) :
    Grouping → Grouping
  | [] => [x]
  | y :: ys => if decide (x.1 < y.1) then x :: y :: ys else y :: insert_sorted_entry x ys

/-- Python `sorted(d.items())` on a grouping with unique keys: sort the
entries by key. -/
def py_sorted_entries (l : Grouping) : Grouping :=
  l.foldr insert_sorted_entry []

/-- The sorting pass of `update_table_of_content` on one core group: sort
every stored sub-entry list, then sort the entries by specificity. -/
def sort_grouping (g : Grouping) : Grouping :=
  py_sorted_entries (g.map fun sv =>
    (sv.1, match sv.2 with
           | none => none
           | some l => some (py_sorted_strings l)))

/-- The sorting pass over the whole table: the outer (core) order is kept,
each inner grouping is sorted. -/
def toc_sorted (toc : Toc) : Toc :=
  toc.map fun kv => (kv.1, sort_grouping kv.2)

/-- Whether a core category is skipped by the rendering loop:
`condition is not None and not condition(core) or core == 'Repo'`. -/
def toc_core_skipped (cond : Option (String → Bool)) (core : String) : Bool :=
  (match cond with
   | some c => !(c core)
   | none => false) || core == "Repo"

/-- The rendered lines of one specificity heading with its sub-entries. -/
def toc_heading_lines (cond : Option (String → Bool)) (core heading : String)
    (subs : Option (List String)) : List String :=
  (if cond.isNone then
    ["\t- [" ++ heading ++ "](" ++ core ++ "/" ++ heading ++ " \"goto " ++ heading ++ "\")\n"]
   else
    ["- [__" ++ heading ++ "__](" ++ heading ++ " \"goto " ++ heading ++ "\")\n"]) ++
  (match subs with
   | none => []
   | some l => l.map fun sub =>
      if cond.isNone then
        "\t\t- [" ++ sub ++ "](" ++ core ++ "/" ++ heading ++ "/" ++ sub ++
        " \"goto " ++ sub ++ "\")\n"
      else
        "\t- [" ++ sub ++ "](" ++ heading ++ "/" ++ sub ++ " \"goto " ++ sub ++ "\")\n")

/-- The rendered lines of one core category: nothing when skipped, else the
optional bold main heading followed by all specificity headings. -/
def toc_core_lines (cond : Option (String → Bool)) (core : String) (g : Grouping) :
    List String :=
  if toc_core_skipped cond core then []
  else
    (if cond.isNone then
      ["- [__" ++ core ++ "__](" ++ core ++ " \"goto " ++ core ++ "\")\n"]
     else []) ++
    (g.map fun hs => toc_heading_lines cond core hs.1 hs.2).flatten

/-- The rendered table-of-content region. -/
def toc_render (toc : Toc) (cond : Option (String → Bool)) : List String :=
  (toc.map fun kv => toc_core_lines cond kv.1 kv.2).flatten

/-- `update_table_of_content` on the lines of one file: locate the markers,
group and sort the log, then assign the rendered outline to the slice
`lines[start+1 : end]`. -/
def update_table_of_content (cond : Option (String → Bool))
    (data : List (String × Details)) (lines : List String) :
    Except UpdateError (List String) :=
  match find_table_points lines "table-of-content" with
  | .error n => .error (.exitCode n)
  | .ok (s, e) =>
    match toc_group data with
    | .error err => .error (.pyError err)
    | .ok g => .ok (py_slice_assign lines (s + 1) e (toc_render (toc_sorted g) cond))

/-- One whole file update as performed by the `UpdateFileContent` constructor:
contributors table first, then table of contents, on the in-memory lines. -/
def full_update (repo : String) (cond : Option (String → Bool))
    (data : List (String × Details)) (lines : List String) :
    Except UpdateError (List String) :=
  match update_table_of_contributors repo cond data lines with
  | .error e => .error e
  | .ok lines1 => update_table_of_content cond data lines1

/-- Scanning state for `strip_regions`. -/
inductive StripMode where
  | outside : StripMode
  | inContributors : StripMode
  | inContent : StripMode

/-- Worker for `strip_regions`. -/
def strip_regions_aux : List String → StripMode → List String
  | [], _ => []
  | l :: ls, .outside =>
    if strIn CONTRIBUTORS_BEGIN l then l :: strip_regions_aux ls .inContributors
    else if strIn CONTENT_BEGIN l then l :: strip_regions_aux ls .inContent
    else l :: strip_regions_aux ls .outside
  | l :: ls, .inContributors =>
    if strIn CONTRIBUTORS_END l then l :: strip_regions_aux ls .outside
    else strip_regions_aux ls .inContributors
  | l :: ls, .inContent =>
    if strIn CONTENT_END l then l :: strip_regions_aux ls .outside
    else strip_regions_aux ls .inContent

/-- Erase the strict interiors of the two marked table regions, keeping every
other line including the marker lines themselves.  A file update touches only
the regions exactly when it leaves this value unchanged. -/
def strip_regions (lines : List String) : List String :=
  strip_regions_aux lines .outside

/-- Worker for `space_replaced`. -/
def space_replaced_chars : List Char → List Char
  | [] => []
  | c :: cs => (if c = spaceChar then ['%', '2', '0'] else [c]) ++ space_replaced_chars cs

/-- Modelled from the spec's words for comparison with the code: the
demo-path "with internal spaces replaced by `%20`", i.e. every space
character replaced by the three characters `%20`. -/
def space_replaced (s : String) : String :=
  String.mk (space_replaced_chars s.data)

/-! ## Helper lemmas about the marker scan -/

theorem find_markers_skip_both {sm em : String} {A : List String}
    (hA : ∀ l ∈ A, strIn sm l = false ∧ strIn em l = false) :
    ∀ (rest : List String) (i : Nat),
      find_markers sm em (A ++ rest) i none none =
        find_markers sm em rest (i + A.length) none none := by
  induction A with
  | nil => intro rest i; simp
  | cons a A ih =>
    intro rest i
    have ha := hA a (List.mem_cons_self a A)
    have hA' : ∀ l ∈ A, strIn sm l = false ∧ strIn em l = false :=
      fun l hl => hA l (List.mem_cons_of_mem a hl)
    simp only [List.cons_append, find_markers]
    simp [ha.1, ha.2]
    rw [ih hA' rest (i + 1)]
    congr 1
    omega

theorem find_markers_hit_start {sm em : String} {b : String}
    (hb : strIn sm b = true) (rest : List String) (i : Nat) :
    find_markers sm em (b :: rest) i none none =
      find_markers sm em rest (i + 1) (some i) none := by
  simp [find_markers, hb]

theorem find_markers_skip_end {sm em : String} {C : List String}
    (hC : ∀ l ∈ C, strIn em l = false) :
    ∀ (rest : List String) (i j : Nat),
      find_markers sm em (C ++ rest) i (some j) none =
        find_markers sm em rest (i + C.length) (some j) none := by
  induction C with
  | nil => intro rest i j; simp
  | cons c C ih =>
    intro rest i j
    have hc := hC c (List.mem_cons_self c C)
    have hC' : ∀ l ∈ C, strIn em l = false := fun l hl => hC l (List.mem_cons_of_mem c hl)
    simp only [List.cons_append, find_markers]
    simp [hc]
    rw [ih hC' rest (i + 1)]
    congr 1
    omega

theorem find_markers_hit_end {sm em : String} {x : String}
    (hx : strIn em x = true) (rest : List String) (i j : Nat) :
    find_markers sm em (x :: rest) i (some j) none = (some j, some i) := by
  simp [find_markers, hx]

theorem find_markers_hit_end_first {sm em : String} {x : String}
    (hxs : strIn sm x = false) (hxe : strIn em x = true) (rest : List String) (i : Nat) :
    find_markers sm em (x :: rest) i none none =
      find_markers sm em rest (i + 1) none (some i) := by
  simp [find_markers, hxs, hxe]

theorem find_markers_skip_start {sm em : String} {B : List String}
    (hB : ∀ l ∈ B, strIn sm l = false) :
    ∀ (rest : List String) (i j : Nat),
      find_markers sm em (B ++ rest) i none (some j) =
        find_markers sm em rest (i + B.length) none (some j) := by
  induction B with
  | nil => intro rest i j; simp
  | cons b B ih =>
    intro rest i j
    have hb := hB b (List.mem_cons_self b B)
    have hB' : ∀ l ∈ B, strIn sm l = false := fun l hl => hB l (List.mem_cons_of_mem b hl)
    simp only [List.cons_append, find_markers]
    simp [hb]
    rw [ih hB' rest (i + 1)]
    congr 1
    omega

theorem find_markers_hit_start_late {sm em : String} {b : String}
    (hb : strIn sm b = true) (rest : List String) (i j : Nat) :
    find_markers sm em (b :: rest) i none (some j) = (some i, some j) := by
  simp [find_markers, hb]

theorem find_markers_no_start {sm em : String} {lines : List String}
    (h : ∀ l ∈ lines, strIn sm l = false) :
    ∀ (i : Nat) (e : Option Nat), (find_markers sm em lines i none e).1 = none := by
  induction lines with
  | nil => intro i e; rfl
  | cons a lines ih =>
    intro i e
    have ha := h a (List.mem_cons_self a lines)
    have h' : ∀ l ∈ lines, strIn sm l = false := fun l hl => h l (List.mem_cons_of_mem a hl)
    simp only [find_markers]
    simp [ha]
    exact ih h' (i + 1) _

theorem find_markers_no_end {sm em : String} {lines : List String}
    (h : ∀ l ∈ lines, strIn em l = false) :
    ∀ (i : Nat) (s : Option Nat), (find_markers sm em lines i s none).2 = none := by
  induction lines with
  | nil => intro i s; rfl
  | cons a lines ih =>
    intro i s
    have ha := h a (List.mem_cons_self a lines)
    have h' : ∀ l ∈ lines, strIn em l = false := fun l hl => h l (List.mem_cons_of_mem a hl)
    simp only [find_markers]
    simp [ha]
    exact ih h' (i + 1) _

/-- On a well-formed decomposition the scan finds the first begin-marker line
and the first end-marker line after it. -/
theorem find_markers_decomp {sm em : String} {P : List String} {b : String}
    {C : List String} {x : String} {D : List String}
    (hP : ∀ l ∈ P, strIn sm l = false ∧ strIn em l = false)
    (hb : strIn sm b = true)
    (hC : ∀ l ∈ C, strIn em l = false)
    (hx : strIn em x = true) :
    find_markers sm em (P ++ [b] ++ C ++ [x] ++ D) 0 none none =
      (some P.length, some (P.length + 1 + C.length)) := by
  rw [show P ++ [b] ++ C ++ [x] ++ D = P ++ ([b] ++ C ++ [x] ++ D) by simp]
  rw [find_markers_skip_both hP]
  rw [show [b] ++ C ++ [x] ++ D = b :: (C ++ (x :: D)) by simp]
  rw [find_markers_hit_start hb]
  rw [find_markers_skip_end hC]
  rw [find_markers_hit_end hx]
  simp

/-- Unfolding `find_table_points` once the marker pair is selected. -/
theorem find_table_points_eq {k sm em : String} (hk : markers_for k = some (sm, em))
    (lines : List String) :
    find_table_points lines k =
      match find_markers sm em lines 0 none none with
      | (some s, some e) => if s ≥ e then .error 3 else .ok (s, e)
      | _ => .error 2 := by
  unfold find_table_points
  rw [hk]

/-- `find_table_points` on a decomposed file returns the marker positions. -/
theorem find_table_points_decomp {k sm em : String} {P : List String} {b : String}
    {C : List String} {x : String} {D : List String}
    (hk : markers_for k = some (sm, em))
    (hP : ∀ l ∈ P, strIn sm l = false ∧ strIn em l = false)
    (hb : strIn sm b = true)
    (hC : ∀ l ∈ C, strIn em l = false)
    (hx : strIn em x = true) :
    find_table_points (P ++ [b] ++ C ++ [x] ++ D) k =
      .ok (P.length, P.length + 1 + C.length) := by
  rw [find_table_points_eq hk]
  rw [find_markers_decomp hP hb hC hx]
  simp
  omega

/-! ## Helper lemmas about slice assignment -/

theorem take_append_add {α : Type} (U V : List α) (k : Nat) :
    (U ++ V).take (U.length + k) = U ++ V.take k := by
  induction U with
  | nil => simp
  | cons a U ih =>
    simp only [List.cons_append, List.length_cons]
    rw [show U.length + 1 + k = (U.length + k) + 1 by omega]
    simp [ih]

theorem drop_append_add {α : Type} (U V : List α) (k : Nat) :
    (U ++ V).drop (U.length + k) = V.drop k := by
  induction U with
  | nil => simp
  | cons a U ih =>
    simp only [List.cons_append, List.length_cons]
    rw [show U.length + 1 + k = (U.length + k) + 1 by omega]
    simp [ih]

/-- Ordinary slice replacement: `a ≤ b ≤ len`. -/
theorem py_slice_assign_replace {α : Type} {l : List α} {a b : Nat} (x : List α)
    (hab : a ≤ b) (hb : b ≤ l.length) :
    py_slice_assign l a b x = l.take a ++ x ++ l.drop b := by
  simp only [py_slice_assign]
  rw [show min a l.length = a by omega, show min b l.length = b by omega,
    show max a b = b by omega]

/-- Degenerate slice (`b ≤ a`): Python inserts at position `a`. -/
theorem py_slice_assign_insert {α : Type} {l : List α} {a b : Nat} (x : List α)
    (hba : b ≤ a) (ha : a ≤ l.length) :
    py_slice_assign l a b x = l.take a ++ x ++ l.drop a := by
  simp only [py_slice_assign]
  rw [show min a l.length = a by omega, show min b l.length = b by omega,
    show max a b = a by omega]

/-! ## C3: exit codes of the marker search -/

/-- C3: a file whose end marker (of the requested kind) appears on a line
before the begin marker exits with code 3; a file missing either marker of
the requested kind exits with code 2; an unknown table kind exits with
code 1. -/
theorem marker_search_exit_codes :
    (∀ (lines : List String) (k : String), markers_for k = none →
        find_table_points lines k = .error 1) ∧
    (∀ (lines : List String) (k sm em : String), markers_for k = some (sm, em) →
        (∀ l ∈ lines, strIn sm l = false) ∨ (∀ l ∈ lines, strIn em l = false) →
        find_table_points lines k = .error 2) ∧
    (∀ (k sm em : String) (A : List String) (x : String) (B : List String)
        (b : String) (D : List String), markers_for k = some (sm, em) →
        (∀ l ∈ A, strIn sm l = false ∧ strIn em l = false) →
        strIn sm x = false → strIn em x = true →
        (∀ l ∈ B, strIn sm l = false) →
        strIn sm b = true →
        find_table_points (A ++ [x] ++ B ++ [b] ++ D) k = .error 3) := by
  refine ⟨?_, ?_, ?_⟩
  · intro lines k hk
    unfold find_table_points
    rw [hk]
  · intro lines k sm em hk h
    rw [find_table_points_eq hk]
    rcases hfm : find_markers sm em lines 0 none none with ⟨s, e⟩
    rcases h with h | h
    · have h1 := @find_markers_no_start sm em lines h 0 none
      rw [hfm] at h1
      simp only at h1
      subst h1
      cases e <;> rfl
    · have h1 := @find_markers_no_end sm em lines h 0 none
      rw [hfm] at h1
      simp only at h1
      subst h1
      cases s <;> rfl
  · intro k sm em A x B b D hk hA hxs hxe hB hb
    rw [find_table_points_eq hk]
    rw [show A ++ [x] ++ B ++ [b] ++ D = A ++ (x :: (B ++ (b :: D))) by simp]
    rw [find_markers_skip_both hA]
    rw [find_markers_hit_end_first hxs hxe]
    rw [find_markers_skip_start hB]
    rw [find_markers_hit_start_late hb]
    simp
    omega

/-- Witness for C3: concrete files hitting exit codes 1, 2 and 3. -/
theorem marker_search_exit_codes_witness :
    find_table_points ["x\n"] "bogus" = .error 1 ∧
    find_table_points ["x\n"] "contributors" = .error 2 ∧
    find_table_points
      [CONTRIBUTORS_END ++ "\n", CONTRIBUTORS_BEGIN ++ "\n"] "contributors" = .error 3 := by
  refine ⟨?_, ?_, ?_⟩
  · exact marker_search_exit_codes.1 ["x\n"] "bogus" (by decide)
  · exact marker_search_exit_codes.2.1 ["x\n"] "contributors"
      CONTRIBUTORS_BEGIN CONTRIBUTORS_END (by decide) (Or.inl (by decide))
  · have := marker_search_exit_codes.2.2 "contributors"
      CONTRIBUTORS_BEGIN CONTRIBUTORS_END [] (CONTRIBUTORS_END ++ "\n") []
      (CONTRIBUTORS_BEGIN ++ "\n") [] (by decide) (by simp) (by decide) (by decide)
      (by simp) (by decide)
    simpa using this

/-! ## C4: the contributor-names cell -/

/-- C4: for the name list `["alice", "bob"]` the contributor cell is exactly
the two profile links joined by comma-space; in general a single name renders
as its profile link and a longer list renders as the head's link, a
comma-space, and the rendering of the tail, so the links appear in the
original list order. -/
theorem contributor_cell_rendering :
    contributors_names_output ["alice", "bob"] =
      "[alice](https://github.com/alice \"goto alice profile\"), [bob](https://github.com/bob \"goto bob profile\")" ∧
    (∀ n : String, contributors_names_output [n] =
      "[" ++ n ++ "](https://github.com/" ++ n ++ " \"goto " ++ n ++ " profile\")") ∧
    (∀ (n : String) (ns : List String), ns ≠ [] →
      contributors_names_output (n :: ns) =
        contributors_names_output [n] ++ ", " ++ contributors_names_output ns) := by
  refine ⟨by decide, fun n => rfl, ?_⟩
  intro n ns hne
  cases ns with
  | nil => exact absurd rfl hne
  | cons m ms => rfl

/-- Witness for C4: the list-order clause at a concrete two-name list. -/
theorem contributor_cell_rendering_witness :
    contributors_names_output ["alice", "bob"] =
      contributors_names_output ["alice"] ++ ", " ++ contributors_names_output ["bob"] :=
  contributor_cell_rendering.2.2 "alice" ["bob"] (by decide)

/-! ## C5: placeholder row for an empty table -/

/-- Number of `|` cell separators on a rendered markdown table line. -/
def pipe_count (s : String) : Nat :=
  (s.data.filter fun c => c = '|').length

/-- C5: when no record passes the active filter the rendered table body is a
single placeholder row of dashes, with five dash cells without a filter and
four with one, and its column count (separator count) agrees with every line
of the active header. -/
theorem contributors_placeholder_row (repo : String) (cond : Option (String → Bool))
    (data : List (String × Details))
    (h : ∀ td ∈ data, row_is_included cond td.2 = false) :
    contributors_updated_lines repo cond data =
      (if cond.isNone then ["| - | - | - | - | - |\n"] else ["| - | - | - | - |\n"]) ∧
    ∀ hl ∈ table_header cond, ∀ rl ∈ contributors_updated_lines repo cond data,
      pipe_count hl = pipe_count rl := by
  have hrows : contributors_rows repo cond data = [] := by
    induction data with
    | nil => rfl
    | cons td rest ih =>
      have h1 := h td (List.mem_cons_self td rest)
      have h2 : ∀ td' ∈ rest, row_is_included cond td'.2 = false :=
        fun td' htd' => h td' (List.mem_cons_of_mem td htd')
      cases td with
      | mk title d =>
        simp only [contributors_rows]
        rw [h1]
        simp [ih h2]
  have hmain : contributors_updated_lines repo cond data =
      (if cond.isNone then ["| - | - | - | - | - |\n"] else ["| - | - | - | - |\n"]) := by
    unfold contributors_updated_lines
    rw [hrows]
    rfl
  refine ⟨hmain, ?_⟩
  intro hl hhl rl hrl
  rw [hmain] at hrl
  cases cond with
  | none =>
    simp only [table_header, List.mem_cons, List.not_mem_nil, or_false] at hhl
    simp only [Option.isNone_none, if_true, List.mem_cons, List.not_mem_nil, or_false] at hrl
    subst hrl
    rcases hhl with h1 | h1 <;> (subst h1; decide)
  | some c =>
    simp only [table_header, List.mem_cons, List.not_mem_nil, or_false] at hhl
    simp only [Option.isNone_some, Bool.false_eq_true, if_false, List.mem_cons,
      List.not_mem_nil, or_false] at hrl
    subst hrl
    rcases hhl with h1 | h1 <;> (subst h1; decide)

/-- Witness for C5: an empty log with no filter, and a one-record log whose
record a filter rejects. -/
theorem contributors_placeholder_row_witness :
    (contributors_updated_lines "r" none [] = ["| - | - | - | - | - |\n"]) ∧
    (contributors_updated_lines "r" (some fun core => core == "Theory")
      [("t", ⟨"Repo", "s", ["a"], [1], "p"⟩)] = ["| - | - | - | - |\n"]) := by
  constructor
  · have := contributors_placeholder_row "r" none [] (by simp)
    simpa using this.1
  · have := contributors_placeholder_row "r" (some fun core => core == "Theory")
      [("t", ⟨"Repo", "s", ["a"], [1], "p"⟩)] (by decide)
    simpa using this.1

/-! ## C6: the demo link target -/

theorem string_data_inj {s t : String} (h : s.data = t.data) : s = t := by
  cases s with
  | mk d1 =>
    cases t with
    | mk d2 => exact congrArg String.mk h

theorem string_mk_data (s : String) : String.mk s.data = s := rfl

theorem pyJoin_cons_cons (sep w v : String) (rest : List String) :
    pyJoin sep (w :: v :: rest) = w ++ sep ++ pyJoin sep (v :: rest) := rfl

theorem space_string_data : (" " : String).data = [spaceChar] := by decide

theorem pyIsSpace_space : pyIsSpace spaceChar = true := by decide

theorem pySplitChars_word {w : List Char} (hw : ∀ c ∈ w, pyIsSpace c = false) :
    ∀ (rest acc : List Char), pySplitChars (w ++ rest) acc = pySplitChars rest (w.reverse ++ acc) := by
  induction w with
  | nil => intro rest acc; simp
  | cons c w ih =>
    intro rest acc
    have hc := hw c (List.mem_cons_self c w)
    have hw' : ∀ a ∈ w, pyIsSpace a = false := fun a ha => hw a (List.mem_cons_of_mem c ha)
    simp only [List.cons_append, pySplitChars, hc, Bool.false_eq_true, if_false,
      List.append_eq]
    rw [ih hw' rest (c :: acc)]
    simp

/-- A non-empty whitespace-free word is space-free. -/
theorem no_space_of_wordlike {w : List Char} (hw : ∀ c ∈ w, pyIsSpace c = false) :
    w.elem spaceChar = false := by
  by_contra h
  have h1 : w.elem spaceChar = true := by
    cases h2 : w.elem spaceChar with
    | true => rfl
    | false => exact absurd h2 h
  have h2 : spaceChar ∈ w := List.elem_iff.mp h1
  have h3 := hw spaceChar h2
  rw [pyIsSpace_space] at h3
  exact absurd h3 (by decide)

/-- Splitting a single-space join of non-empty whitespace-free words gives the
words back. -/
theorem pySplitChars_join {parts : List String} (hne : parts ≠ [])
    (hw : ∀ w ∈ parts, w.data ≠ [] ∧ ∀ c ∈ w.data, pyIsSpace c = false) :
    pySplitChars (pyJoin " " parts).data [] = parts.map String.data := by
  induction parts with
  | nil => exact absurd rfl hne
  | cons w parts ih =>
    have hw1 := hw w (List.mem_cons_self w parts)
    cases parts with
    | nil =>
      have h1 := pySplitChars_word hw1.2 [] []
      simp only [List.append_nil] at h1
      show pySplitChars w.data [] = [w.data]
      rw [h1]
      simp only [pySplitChars]
      rw [if_neg (by simp [hw1.1])]
      simp
    | cons v rest =>
      have hw' : ∀ u ∈ v :: rest, u.data ≠ [] ∧ ∀ c ∈ u.data, pyIsSpace c = false :=
        fun u hu => hw u (List.mem_cons_of_mem w hu)
      rw [pyJoin_cons_cons]
      rw [String.data_append, String.data_append, space_string_data]
      rw [List.append_assoc, pySplitChars_word hw1.2]
      simp only [List.cons_append, List.nil_append, pySplitChars, pyIsSpace_space, if_true]
      rw [if_neg (by simp [hw1.1])]
      simp only [List.append_nil, List.reverse_reverse, List.append_eq, List.nil_append]
      rw [ih (by simp) hw']
      simp

theorem space_replaced_chars_append (a b : List Char) :
    space_replaced_chars (a ++ b) = space_replaced_chars a ++ space_replaced_chars b := by
  induction a with
  | nil => simp [space_replaced_chars]
  | cons c a ih => simp [space_replaced_chars, ih]

theorem space_replaced_chars_no_space {l : List Char}
    (h : ∀ c ∈ l, pyIsSpace c = false) : space_replaced_chars l = l := by
  induction l with
  | nil => rfl
  | cons c l ih =>
    have hc := h c (List.mem_cons_self c l)
    have h' : ∀ a ∈ l, pyIsSpace a = false := fun a ha => h a (List.mem_cons_of_mem c ha)
    have hcs : c ≠ spaceChar := by
      intro he
      rw [he, pyIsSpace_space] at hc
      exact absurd hc (by decide)
    simp [space_replaced_chars, hcs, ih h']

/-- On a single-space join of whitespace-free words, replacing each space by
`%20` is the `%20` join of the words. -/
theorem space_replaced_join {parts : List String}
    (hw : ∀ w ∈ parts, w.data ≠ [] ∧ ∀ c ∈ w.data, pyIsSpace c = false) :
    space_replaced (pyJoin " " parts) = pyJoin "%20" parts := by
  apply string_data_inj
  show space_replaced_chars (pyJoin " " parts).data = (pyJoin "%20" parts).data
  induction parts with
  | nil => rfl
  | cons w parts ih =>
    have hw1 := hw w (List.mem_cons_self w parts)
    cases parts with
    | nil => exact space_replaced_chars_no_space hw1.2
    | cons v rest =>
      have hw' : ∀ u ∈ v :: rest, u.data ≠ [] ∧ ∀ c ∈ u.data, pyIsSpace c = false :=
        fun u hu => hw u (List.mem_cons_of_mem w hu)
      rw [pyJoin_cons_cons, pyJoin_cons_cons]
      rw [String.data_append, String.data_append, space_string_data,
        String.data_append, String.data_append]
      rw [space_replaced_chars_append, space_replaced_chars_append]
      rw [space_replaced_chars_no_space hw1.2, ih hw']
      congr 1

/-- C6 counterexample: on the demo-path `"a  b"` (two internal spaces) the
code collapses the whitespace run to a single `%20`, so the rendered link
target is not the path with each internal space replaced by `%20`. -/
theorem demo_target_counterexample :
    demo_path_target "a  b" = "a%20b" ∧
    space_replaced "a  b" = "a%20%20b" ∧
    demo_path_target "a  b" ≠ space_replaced "a  b" := by
  refine ⟨by decide, by decide, by decide⟩

/-- C6 amended: for a demo-path consisting of non-empty whitespace-free words
separated by single spaces, the rendered link target is the path with each
(internal, necessarily single) space replaced by `%20`, that is, the words
joined by `%20`; in particular `"My Folder/demo"` renders as
`"My%20Folder/demo"`. -/
theorem demo_target_single_spaced (parts : List String) (hne : parts ≠ [])
    (hw : ∀ w ∈ parts, w.data ≠ [] ∧ ∀ c ∈ w.data, pyIsSpace c = false) :
    demo_path_target (pyJoin " " parts) = pyJoin "%20" parts ∧
    demo_path_target (pyJoin " " parts) = space_replaced (pyJoin " " parts) := by
  have hmain : demo_path_target (pyJoin " " parts) = pyJoin "%20" parts := by
    cases parts with
    | nil => exact absurd rfl hne
    | cons w parts =>
      have hw1 := hw w (List.mem_cons_self w parts)
      cases parts with
      | nil =>
        show demo_path_target w = w
        unfold demo_path_target
        rw [if_neg]
        rw [no_space_of_wordlike hw1.2]
        simp
      | cons v rest =>
        have hsp : (pyJoin " " (w :: v :: rest)).data.elem spaceChar = true := by
          apply List.elem_iff.mpr
          rw [pyJoin_cons_cons, String.data_append, String.data_append, space_string_data]
          simp
        unfold demo_path_target
        rw [hsp]
        simp only [if_true]
        unfold pySplit
        rw [pySplitChars_join (by simp) hw]
        rw [List.map_map]
        have : (String.mk ∘ String.data) = id := by
          funext s
          exact string_mk_data s
        rw [this, List.map_id]
  exact ⟨hmain, hmain.trans (space_replaced_join hw).symm⟩

/-- Witness for C6 amended: the spec's own example `"My Folder/demo"`. -/
theorem demo_target_single_spaced_witness :
    demo_path_target (pyJoin " " ["My", "Folder/demo"]) = pyJoin "%20" ["My", "Folder/demo"] ∧
    demo_path_target "My Folder/demo" = "My%20Folder/demo" := by
  constructor
  · exact (demo_target_single_spaced ["My", "Folder/demo"] (by decide) (by decide)).1
  · have := (demo_target_single_spaced ["My", "Folder/demo"] (by decide) (by decide)).1
    simpa using this

/-! ## Helper lemmas about the table-of-content grouping -/

theorem assoc_set_keys {α : Type} (k : String) (v : α) (l : List (String × α)) :
    (assoc_set k v l).map Prod.fst = l.map Prod.fst := by
  induction l with
  | nil => rfl
  | cons kv rest ih =>
    cases kv with
    | mk k' v' =>
      simp only [assoc_set]
      by_cases h : k' = k
      · simp [h]
      · simp [h, ih]

theorem assoc_lookup_eq_none {α : Type} {k : String} {l : List (String × α)}
    (h : k ∉ l.map Prod.fst) : assoc_lookup k l = none := by
  induction l with
  | nil => rfl
  | cons kv rest ih =>
    cases kv with
    | mk k' v' =>
      simp only [List.map_cons, List.mem_cons] at h
      push_neg at h
      simp only [assoc_lookup]
      rw [if_neg (fun he => h.1 he.symm)]
      exact ih h.2

theorem toc_insert_keys {g g' : Toc} {core specificity title : String}
    (h : toc_insert g core specificity title = .ok g') :
    g'.map Prod.fst = g.map Prod.fst := by
  unfold toc_insert at h
  split at h
  · exact absurd h (by simp)
  · split at h
    · simp only [Except.ok.injEq] at h
      rw [← h]
      exact assoc_set_keys core _ g
    · split at h
      · split at h
        · exact absurd h (by simp)
        · split at h
          · simp only [Except.ok.injEq] at h
            rw [← h]
          · simp only [Except.ok.injEq] at h
            rw [← h]
            exact assoc_set_keys core _ g
      · simp only [Except.ok.injEq] at h
        rw [← h]

theorem toc_group_from_keys {data : List (String × Details)} :
    ∀ {g g' : Toc}, toc_group_from g data = .ok g' →
      g'.map Prod.fst = g.map Prod.fst := by
  induction data with
  | nil =>
    intro g g' h
    simp only [toc_group_from, Except.ok.injEq] at h
    rw [h]
  | cons td rest ih =>
    intro g g' h
    cases td with
    | mk title d =>
      simp only [toc_group_from] at h
      cases hins : toc_insert g d.core d.specificity title with
      | error e => rw [hins] at h; exact absurd h (by simp)
      | ok g1 =>
        rw [hins] at h
        exact (ih h).trans (toc_insert_keys hins)

/-- A successful grouping keeps exactly the three skeleton categories, in
skeleton order. -/
theorem toc_group_shape {data : List (String × Details)} {g : Toc}
    (h : toc_group data = .ok g) :
    ∃ gT gS gR, g = [("Theory", gT), ("Solved-Problems", gS), ("Repo", gR)] := by
  have hk : g.map Prod.fst = ["Theory", "Solved-Problems", "Repo"] :=
    toc_group_from_keys h
  match g with
  | [] => simp at hk
  | [_] => simp at hk
  | [_, _] => simp at hk
  | (k1, v1) :: (k2, v2) :: (k3, v3) :: rest =>
    simp only [List.map_cons, List.cons.injEq] at hk
    have hrest : rest.map Prod.fst = [] := hk.2.2.2
    have : rest = [] := List.map_eq_nil_iff.mp hrest
    exact ⟨v1, v2, v3, by simp [hk.1, hk.2.1, hk.2.2.1, this]⟩

theorem toc_group_from_append (l1 l2 : List (String × Details)) :
    ∀ g : Toc, toc_group_from g (l1 ++ l2) =
      match toc_group_from g l1 with
      | .error e => .error e
      | .ok g' => toc_group_from g' l2 := by
  induction l1 with
  | nil => intro g; rfl
  | cons td rest ih =>
    intro g
    cases td with
    | mk title d =>
      simp only [List.cons_append, toc_group_from]
      cases hins : toc_insert g d.core d.specificity title with
      | error e => rfl
      | ok g1 => exact ih g1

/-! ## C7: the Repo category never reaches the rendered outline -/

/-- C7: for every log that groups successfully and every filter, the rendered
table-of-content region is exactly the Theory part followed by the
Solved-Problems part: no line is derived from the `Repo` category, whose
grouping (here `gR`) does not appear in the result. -/
theorem toc_repo_never_rendered (data : List (String × Details))
    (cond : Option (String → Bool)) (g : Toc) (h : toc_group data = .ok g) :
    ∃ gT gS, toc_render (toc_sorted g) cond =
      toc_core_lines cond "Theory" gT ++ toc_core_lines cond "Solved-Problems" gS := by
  obtain ⟨gT, gS, gR, rfl⟩ := toc_group_shape h
  refine ⟨sort_grouping gT, sort_grouping gS, ?_⟩
  have hskip : toc_core_skipped cond "Repo" = true := by
    cases cond <;> simp [toc_core_skipped]
  simp [toc_render, toc_sorted, toc_core_lines, hskip]

/-- Witness for C7: a concrete log containing a Repo record renders, for the
empty filter, into the two category headings only. -/
theorem toc_repo_never_rendered_witness :
    ∃ gT gS,
      toc_render
        (toc_sorted [("Theory", []), ("Solved-Problems", []),
          ("Repo", [("s", some ["t"])])]) none =
        toc_core_lines none "Theory" gT ++ toc_core_lines none "Solved-Problems" gS := by
  exact toc_repo_never_rendered [("t", ⟨"Repo", "s", ["a"], [1], "p"⟩)] none
    [("Theory", []), ("Solved-Problems", []), ("Repo", [("s", some ["t"])])] (by decide)

/-! ## C8: a title grouped under an already-`None` specificity -/

/-- C8 (code bug): with two records of core `Theory` and specificity
`Sorting`, one titled `Sorting` and one titled `QuickSort`, the grouping
raises `TypeError` when `Sorting` is inserted first (the guard
`title not in table[core][specificity]` is evaluated on `None`; the
`is None` repair branch below it is unreachable), while the opposite
insertion order produces the intended outline: heading `Sorting` with the
single sub-entry `QuickSort`. -/
theorem toc_title_under_none_specificity_bug :
    toc_group [("Sorting", ⟨"Theory", "Sorting", ["a"], [1], "p"⟩),
               ("QuickSort", ⟨"Theory", "Sorting", ["a"], [1], "p"⟩)] =
      .error .typeError ∧
    toc_group [("QuickSort", ⟨"Theory", "Sorting", ["a"], [1], "p"⟩),
               ("Sorting", ⟨"Theory", "Sorting", ["a"], [1], "p"⟩)] =
      .ok [("Theory", [("Sorting", some ["QuickSort"])]),
           ("Solved-Problems", []), ("Repo", [])] ∧
    toc_render
      (toc_sorted [("Theory", [("Sorting", some ["QuickSort"])]),
        ("Solved-Problems", []), ("Repo", [])]) none =
      ["- [__Theory__](Theory \"goto Theory\")\n",
       "\t- [Sorting](Theory/Sorting \"goto Sorting\")\n",
       "\t\t- [QuickSort](Theory/Sorting/QuickSort \"goto QuickSort\")\n",
       "- [__Solved-Problems__](Solved-Problems \"goto Solved-Problems\")\n"] := by
  refine ⟨by decide, by decide, by decide⟩

/-! ## Unfolding lemmas for the two update passes -/

theorem update_toc_unfold {cond : Option (String → Bool)}
    {data : List (String × Details)} {lines : List String} {s e : Nat}
    (h : find_table_points lines "table-of-content" = .ok (s, e)) :
    update_table_of_content cond data lines =
      match toc_group data with
      | .error err => .error (.pyError err)
      | .ok g => .ok (py_slice_assign lines (s + 1) e (toc_render (toc_sorted g) cond)) := by
  unfold update_table_of_content
  rw [h]

theorem update_contrib_unfold {repo : String} {cond : Option (String → Bool)}
    {data : List (String × Details)} {lines : List String} {s e : Nat}
    (h : find_table_points lines "contributors" = .ok (s, e)) :
    update_table_of_contributors repo cond data lines =
      .ok (py_slice_assign
        (if e - s = 1 then py_slice_assign lines (s + 1) e (table_header cond) else lines)
        (s + 3) e (contributors_updated_lines repo cond data)) := by
  unfold update_table_of_contributors
  rw [h]

/-- The table-of-content pass on a well-formed decomposition replaces exactly
the region between the markers with the rendered outline. -/
theorem toc_update_decomp {A : List String} {b : String} {R : List String}
    {x : String} {T : List String} {cond : Option (String → Bool)}
    {data : List (String × Details)} {g : Toc}
    (hA : ∀ l ∈ A, strIn CONTENT_BEGIN l = false ∧ strIn CONTENT_END l = false)
    (hb : strIn CONTENT_BEGIN b = true)
    (hR : ∀ l ∈ R, strIn CONTENT_END l = false)
    (hx : strIn CONTENT_END x = true)
    (hg : toc_group data = .ok g) :
    update_table_of_content cond data (A ++ [b] ++ R ++ [x] ++ T) =
      .ok (A ++ [b] ++ toc_render (toc_sorted g) cond ++ [x] ++ T) := by
  have hfind := find_table_points_decomp (k := "table-of-content") (D := T)
    (by decide) hA hb hR hx
  rw [update_toc_unfold hfind, hg]
  show Except.ok (py_slice_assign (A ++ [b] ++ R ++ [x] ++ T) (A.length + 1)
    (A.length + 1 + R.length) (toc_render (toc_sorted g) cond)) = _
  congr 1
  rw [py_slice_assign_replace _ (by omega) (by simp [List.length_append]; omega)]
  rw [show A ++ [b] ++ R ++ [x] ++ T = A ++ [b] ++ R ++ ([x] ++ T) by simp]
  have htake : List.take (A.length + 1) (A ++ [b] ++ R ++ ([x] ++ T)) = A ++ [b] := by
    rw [show A ++ [b] ++ R ++ ([x] ++ T) = (A ++ [b]) ++ (R ++ ([x] ++ T)) by simp]
    exact List.take_left' (by simp)
  have hdrop : List.drop (A.length + 1 + R.length) (A ++ [b] ++ R ++ ([x] ++ T)) =
      [x] ++ T := by
    rw [show A ++ [b] ++ R ++ ([x] ++ T) = ((A ++ [b]) ++ R) ++ ([x] ++ T) by simp]
    exact List.drop_left' (by simp; omega)
  rw [htake, hdrop]
  simp

/-! ## C9: a record with an unknown core category -/

/-- C9: on a file with well-formed content markers, a log containing a record
whose core is outside the fixed skeleton `Theory` / `Solved-Problems` /
`Repo` makes the table-of-content update fail with the uncaught key-lookup
error `KeyError core` at that record (assuming the records before it group
without error): it neither exits with one of the documented codes 1, 2, 3
nor creates a new category. -/
theorem toc_unknown_core_key_error
    {A : List String} {b : String} {R : List String} {x : String} {T : List String}
    (hA : ∀ l ∈ A, strIn CONTENT_BEGIN l = false ∧ strIn CONTENT_END l = false)
    (hb : strIn CONTENT_BEGIN b = true)
    (hR : ∀ l ∈ R, strIn CONTENT_END l = false)
    (hx : strIn CONTENT_END x = true)
    (cond : Option (String → Bool))
    (pre post : List (String × Details)) (title : String) (d : Details) (g : Toc)
    (hcore : d.core ≠ "Theory" ∧ d.core ≠ "Solved-Problems" ∧ d.core ≠ "Repo")
    (hpre : toc_group pre = .ok g) :
    update_table_of_content cond (pre ++ (title, d) :: post) (A ++ [b] ++ R ++ [x] ++ T) =
      .error (.pyError (.keyError d.core)) := by
  have hfind := find_table_points_decomp (k := "table-of-content") (D := T)
    (by decide) hA hb hR hx
  rw [update_toc_unfold hfind]
  have hkeys : g.map Prod.fst = ["Theory", "Solved-Problems", "Repo"] :=
    toc_group_from_keys hpre
  have hlook : assoc_lookup d.core g = none := by
    apply assoc_lookup_eq_none
    rw [hkeys]
    simp [hcore.1, hcore.2.1, hcore.2.2]
  have hgrp : toc_group (pre ++ (title, d) :: post) = .error (.keyError d.core) := by
    unfold toc_group
    rw [toc_group_from_append]
    unfold toc_group at hpre
    rw [hpre]
    show toc_group_from g ((title, d) :: post) = _
    simp only [toc_group_from]
    unfold toc_insert
    rw [hlook]
  rw [hgrp]

/-- Witness for C9: a one-record log with core `"Bogus"` on a minimal
well-formed file. -/
theorem toc_unknown_core_key_error_witness :
    update_table_of_content none
      [("t", ⟨"Bogus", "s", ["a"], [1], "p"⟩)]
      ([] ++ [CONTENT_BEGIN ++ "\n"] ++ [] ++ [CONTENT_END ++ "\n"] ++ []) =
      .error (.pyError (.keyError "Bogus")) := by
  exact toc_unknown_core_key_error (by simp) (by decide) (by simp) (by decide)
    none [] [] "t" ⟨"Bogus", "s", ["a"], [1], "p"⟩ toc_skeleton
    (by refine ⟨by decide, by decide, by decide⟩) rfl

/-! ## C10: an active filter matching no category leaves the region empty -/

/-- C10: when a filter is active and rejects both `Theory` and
`Solved-Problems` (so that no renderable category matches — `Repo` is always
excluded anyway), the table-of-content update writes zero lines between its
markers: no placeholder is emitted, unlike the contributors table. -/
theorem toc_filtered_empty_region
    {A : List String} {b : String} {R : List String} {x : String} {T : List String}
    (hA : ∀ l ∈ A, strIn CONTENT_BEGIN l = false ∧ strIn CONTENT_END l = false)
    (hb : strIn CONTENT_BEGIN b = true)
    (hR : ∀ l ∈ R, strIn CONTENT_END l = false)
    (hx : strIn CONTENT_END x = true)
    (c : String → Bool) (data : List (String × Details)) (g : Toc)
    (hg : toc_group data = .ok g)
    (hT : c "Theory" = false) (hS : c "Solved-Problems" = false) :
    update_table_of_content (some c) data (A ++ [b] ++ R ++ [x] ++ T) =
      .ok (A ++ [b] ++ [x] ++ T) := by
  have hdec := @toc_update_decomp A b R x T (some c) data g hA hb hR hx hg
  obtain ⟨gT, gS, gR, rfl⟩ := toc_group_shape hg
  have hrender :
      toc_render (toc_sorted [("Theory", gT), ("Solved-Problems", gS), ("Repo", gR)])
        (some c) = [] := by
    simp [toc_render, toc_sorted, toc_core_lines, toc_core_skipped, hT, hS]
  rw [hrender] at hdec
  simpa using hdec

/-- Witness for C10: a filter rejecting every category, on a one-record log. -/
theorem toc_filtered_empty_region_witness :
    update_table_of_content (some fun core => core == "Graphs")
      [("t", ⟨"Theory", "s", ["a"], [1], "p"⟩)]
      ([] ++ [CONTENT_BEGIN ++ "\n"] ++ ["old\n"] ++ [CONTENT_END ++ "\n"] ++ []) =
      .ok ([] ++ [CONTENT_BEGIN ++ "\n"] ++ [CONTENT_END ++ "\n"] ++ []) := by
  exact toc_filtered_empty_region (by simp) (by decide) (by decide) (by decide)
    (fun core => core == "Graphs") [("t", ⟨"Theory", "s", ["a"], [1], "p"⟩)]
    [("Theory", [("s", some ["t"])]), ("Solved-Problems", []), ("Repo", [])]
    (by decide) (by decide) (by decide)

/-! ## The contributors pass on decomposed files -/

theorem table_header_length (cond : Option (String → Bool)) :
    (table_header cond).length = 2 := by
  cases cond <;> rfl

theorem table_header_clean (cond : Option (String → Bool)) :
    ∀ l ∈ table_header cond,
      strIn CONTRIBUTORS_END l = false ∧ strIn CONTENT_BEGIN l = false ∧
      strIn CONTENT_END l = false := by
  cases cond with
  | none =>
    intro l hl
    simp only [table_header, List.mem_cons, List.not_mem_nil, or_false] at hl
    rcases hl with h | h <;> subst h <;> exact ⟨by decide, by decide, by decide⟩
  | some c =>
    intro l hl
    simp only [table_header, List.mem_cons, List.not_mem_nil, or_false] at hl
    rcases hl with h | h <;> subst h <;> exact ⟨by decide, by decide, by decide⟩

theorem contributors_updated_lines_ne_nil (repo : String)
    (cond : Option (String → Bool)) (data : List (String × Details)) :
    contributors_updated_lines repo cond data ≠ [] := by
  unfold contributors_updated_lines
  cases hrows : contributors_rows repo cond data with
  | nil => cases cond <;> simp [hrows]
  | cons a rest => simp [hrows]

/-- The contributors pass on a file whose region between the markers is
empty: the header is synthesised, and the rendered rows land between header
and end marker. -/
theorem contrib_update_decomp_nil {P : List String} {b x : String} {T : List String}
    {repo : String} {cond : Option (String → Bool)} {data : List (String × Details)}
    (hP : ∀ l ∈ P, strIn CONTRIBUTORS_BEGIN l = false ∧ strIn CONTRIBUTORS_END l = false)
    (hb : strIn CONTRIBUTORS_BEGIN b = true)
    (hx : strIn CONTRIBUTORS_END x = true) :
    update_table_of_contributors repo cond data (P ++ [b] ++ [x] ++ T) =
      .ok (P ++ [b] ++ (table_header cond ++ contributors_updated_lines repo cond data) ++
        [x] ++ T) := by
  have hfind := find_table_points_decomp (k := "contributors") (C := []) (D := T)
    (by decide) hP hb (by simp) hx
  simp only [List.append_nil, List.length_nil, Nat.add_zero] at hfind
  rw [update_contrib_unfold hfind]
  rw [if_pos (by omega)]
  have htake1 : List.take (P.length + 1) (P ++ [b] ++ [x] ++ T) = P ++ [b] := by
    rw [show P ++ [b] ++ [x] ++ T = (P ++ [b]) ++ ([x] ++ T) by simp]
    exact List.take_left' (by simp)
  have hdrop1 : List.drop (P.length + 1) (P ++ [b] ++ [x] ++ T) = [x] ++ T := by
    rw [show P ++ [b] ++ [x] ++ T = (P ++ [b]) ++ ([x] ++ T) by simp]
    exact List.drop_left' (by simp)
  have hinner : py_slice_assign (P ++ [b] ++ [x] ++ T) (P.length + 1) (P.length + 1)
      (table_header cond) = (P ++ [b]) ++ table_header cond ++ ([x] ++ T) := by
    rw [py_slice_assign_insert _ (le_refl _) (by simp [List.length_append])]
    rw [htake1, hdrop1]
  rw [hinner]
  rw [py_slice_assign_insert _ (by omega)
    (by simp [List.length_append, table_header_length])]
  have hlen2 : ((P ++ [b]) ++ table_header cond).length = P.length + 3 := by
    simp [List.length_append, table_header_length]
  have htake2 : List.take (P.length + 3)
      ((P ++ [b]) ++ table_header cond ++ ([x] ++ T)) = (P ++ [b]) ++ table_header cond := by
    rw [show (P ++ [b]) ++ table_header cond ++ ([x] ++ T) =
      ((P ++ [b]) ++ table_header cond) ++ ([x] ++ T) by simp]
    exact List.take_left' hlen2
  have hdrop2 : List.drop (P.length + 3)
      ((P ++ [b]) ++ table_header cond ++ ([x] ++ T)) = [x] ++ T := by
    rw [show (P ++ [b]) ++ table_header cond ++ ([x] ++ T) =
      ((P ++ [b]) ++ table_header cond) ++ ([x] ++ T) by simp]
    exact List.drop_left' hlen2
  rw [htake2, hdrop2]
  simp

/-- The contributors pass on a file whose region between the markers has at
least two lines: the first two are kept as the header, the rest is replaced
by the rendered rows. -/
theorem contrib_update_decomp_big {P : List String} {b : String} {R : List String}
    {x : String} {T : List String}
    {repo : String} {cond : Option (String → Bool)} {data : List (String × Details)}
    (hP : ∀ l ∈ P, strIn CONTRIBUTORS_BEGIN l = false ∧ strIn CONTRIBUTORS_END l = false)
    (hb : strIn CONTRIBUTORS_BEGIN b = true)
    (hR : ∀ l ∈ R, strIn CONTRIBUTORS_END l = false)
    (hx : strIn CONTRIBUTORS_END x = true)
    (hlen : 2 ≤ R.length) :
    update_table_of_contributors repo cond data (P ++ [b] ++ R ++ [x] ++ T) =
      .ok (P ++ [b] ++ (R.take 2 ++ contributors_updated_lines repo cond data) ++
        [x] ++ T) := by
  have hfind := find_table_points_decomp (k := "contributors") (D := T)
    (by decide) hP hb hR hx
  rw [update_contrib_unfold hfind]
  rw [if_neg (by omega)]
  rw [py_slice_assign_replace _ (by omega) (by simp [List.length_append]; omega)]
  have htake : List.take (P.length + 3) (P ++ [b] ++ R ++ [x] ++ T) =
      (P ++ [b]) ++ R.take 2 := by
    rw [show P ++ [b] ++ R ++ [x] ++ T = (P ++ [b]) ++ (R ++ ([x] ++ T)) by simp]
    rw [show P.length + 3 = (P ++ [b]).length + 2 by simp]
    rw [take_append_add]
    rw [List.take_append_of_le_length hlen]
  have hdrop : List.drop (P.length + 1 + R.length) (P ++ [b] ++ R ++ [x] ++ T) =
      [x] ++ T := by
    rw [show P ++ [b] ++ R ++ [x] ++ T = ((P ++ [b]) ++ R) ++ ([x] ++ T) by simp]
    exact List.drop_left' (by simp; omega)
  rw [htake, hdrop]
  simp

/-! ## The whole update on decomposed files -/

/-- The whole update on a file with an empty contributors region: the header
and rows land inside the contributors markers, the outline inside the content
markers, and everything else is untouched (modulo a grouping failure). -/
theorem full_update_match_nil
    {P : List String} {b1 x1 : String} {Q : List String} {b2 : String}
    {R2 : List String} {x2 : String} {S : List String}
    {repo : String} {cond : Option (String → Bool)} {data : List (String × Details)}
    (hP : ∀ l ∈ P, strIn CONTRIBUTORS_BEGIN l = false ∧ strIn CONTRIBUTORS_END l = false ∧
      strIn CONTENT_BEGIN l = false ∧ strIn CONTENT_END l = false)
    (hb1 : strIn CONTRIBUTORS_BEGIN b1 = true ∧ strIn CONTENT_BEGIN b1 = false ∧
      strIn CONTENT_END b1 = false)
    (hx1 : strIn CONTRIBUTORS_END x1 = true ∧ strIn CONTENT_BEGIN x1 = false ∧
      strIn CONTENT_END x1 = false)
    (hQ : ∀ l ∈ Q, strIn CONTENT_BEGIN l = false ∧ strIn CONTENT_END l = false)
    (hb2 : strIn CONTENT_BEGIN b2 = true)
    (hR2 : ∀ l ∈ R2, strIn CONTENT_END l = false)
    (hx2 : strIn CONTENT_END x2 = true)
    (hrows : ∀ l ∈ contributors_updated_lines repo cond data,
      strIn CONTENT_BEGIN l = false ∧ strIn CONTENT_END l = false) :
    full_update repo cond data (P ++ [b1] ++ [x1] ++ Q ++ [b2] ++ R2 ++ [x2] ++ S) =
      match toc_group data with
      | .error e => .error (.pyError e)
      | .ok g => .ok (P ++ [b1] ++
          (table_header cond ++ contributors_updated_lines repo cond data) ++ [x1] ++
          Q ++ [b2] ++ toc_render (toc_sorted g) cond ++ [x2] ++ S) := by
  have hA : ∀ l ∈ P ++ [b1] ++
      (table_header cond ++ contributors_updated_lines repo cond data) ++ [x1] ++ Q,
      strIn CONTENT_BEGIN l = false ∧ strIn CONTENT_END l = false := by
    simp only [List.forall_mem_append, List.forall_mem_singleton]
    exact ⟨⟨⟨⟨fun l hl => (hP l hl).2.2, ⟨hb1.2.1, hb1.2.2⟩⟩,
      ⟨fun l hl => (table_header_clean cond l hl).2, fun l hl => hrows l hl⟩⟩,
      ⟨hx1.2.1, hx1.2.2⟩⟩, fun l hl => hQ l hl⟩
  unfold full_update
  rw [show P ++ [b1] ++ [x1] ++ Q ++ [b2] ++ R2 ++ [x2] ++ S
      = P ++ [b1] ++ [x1] ++ (Q ++ [b2] ++ R2 ++ [x2] ++ S) by simp]
  rw [contrib_update_decomp_nil (fun l hl => ⟨(hP l hl).1, (hP l hl).2.1⟩) hb1.1 hx1.1]
  show update_table_of_content cond data
    (P ++ [b1] ++ (table_header cond ++ contributors_updated_lines repo cond data) ++
      [x1] ++ (Q ++ [b2] ++ R2 ++ [x2] ++ S)) = _
  rw [show P ++ [b1] ++ (table_header cond ++ contributors_updated_lines repo cond data) ++
      [x1] ++ (Q ++ [b2] ++ R2 ++ [x2] ++ S)
      = (P ++ [b1] ++ (table_header cond ++ contributors_updated_lines repo cond data) ++
        [x1] ++ Q) ++ [b2] ++ R2 ++ [x2] ++ S by simp]
  cases hgr : toc_group data with
  | error e =>
    have hfind2 := find_table_points_decomp (k := "table-of-content") (C := R2) (D := S)
      (by decide) hA hb2 hR2 hx2
    rw [update_toc_unfold hfind2, hgr]
  | ok g =>
    rw [toc_update_decomp hA hb2 hR2 hx2 hgr]

/-- The whole update on a file whose contributors region holds at least two
lines: the first two are kept, the rows replace the remainder, the outline
replaces the content region. -/
theorem full_update_match_big
    {P : List String} {b1 : String} {R1 : List String} {x1 : String} {Q : List String}
    {b2 : String} {R2 : List String} {x2 : String} {S : List String}
    {repo : String} {cond : Option (String → Bool)} {data : List (String × Details)}
    (hP : ∀ l ∈ P, strIn CONTRIBUTORS_BEGIN l = false ∧ strIn CONTRIBUTORS_END l = false ∧
      strIn CONTENT_BEGIN l = false ∧ strIn CONTENT_END l = false)
    (hb1 : strIn CONTRIBUTORS_BEGIN b1 = true ∧ strIn CONTENT_BEGIN b1 = false ∧
      strIn CONTENT_END b1 = false)
    (hR1 : ∀ l ∈ R1, strIn CONTRIBUTORS_END l = false ∧ strIn CONTENT_BEGIN l = false ∧
      strIn CONTENT_END l = false)
    (hx1 : strIn CONTRIBUTORS_END x1 = true ∧ strIn CONTENT_BEGIN x1 = false ∧
      strIn CONTENT_END x1 = false)
    (hQ : ∀ l ∈ Q, strIn CONTENT_BEGIN l = false ∧ strIn CONTENT_END l = false)
    (hb2 : strIn CONTENT_BEGIN b2 = true)
    (hR2 : ∀ l ∈ R2, strIn CONTENT_END l = false)
    (hx2 : strIn CONTENT_END x2 = true)
    (hrows : ∀ l ∈ contributors_updated_lines repo cond data,
      strIn CONTENT_BEGIN l = false ∧ strIn CONTENT_END l = false)
    (hlen : 2 ≤ R1.length) :
    full_update repo cond data (P ++ [b1] ++ R1 ++ [x1] ++ Q ++ [b2] ++ R2 ++ [x2] ++ S) =
      match toc_group data with
      | .error e => .error (.pyError e)
      | .ok g => .ok (P ++ [b1] ++
          (R1.take 2 ++ contributors_updated_lines repo cond data) ++ [x1] ++
          Q ++ [b2] ++ toc_render (toc_sorted g) cond ++ [x2] ++ S) := by
  have hA : ∀ l ∈ P ++ [b1] ++
      (R1.take 2 ++ contributors_updated_lines repo cond data) ++ [x1] ++ Q,
      strIn CONTENT_BEGIN l = false ∧ strIn CONTENT_END l = false := by
    simp only [List.forall_mem_append, List.forall_mem_singleton]
    exact ⟨⟨⟨⟨fun l hl => (hP l hl).2.2, ⟨hb1.2.1, hb1.2.2⟩⟩,
      ⟨fun l hl => (hR1 l (List.take_subset _ _ hl)).2, fun l hl => hrows l hl⟩⟩,
      ⟨hx1.2.1, hx1.2.2⟩⟩, fun l hl => hQ l hl⟩
  unfold full_update
  rw [show P ++ [b1] ++ R1 ++ [x1] ++ Q ++ [b2] ++ R2 ++ [x2] ++ S
      = P ++ [b1] ++ R1 ++ [x1] ++ (Q ++ [b2] ++ R2 ++ [x2] ++ S) by simp]
  rw [contrib_update_decomp_big (fun l hl => ⟨(hP l hl).1, (hP l hl).2.1⟩) hb1.1
    (fun l hl => (hR1 l hl).1) hx1.1 hlen]
  show update_table_of_content cond data
    (P ++ [b1] ++ (R1.take 2 ++ contributors_updated_lines repo cond data) ++
      [x1] ++ (Q ++ [b2] ++ R2 ++ [x2] ++ S)) = _
  rw [show P ++ [b1] ++ (R1.take 2 ++ contributors_updated_lines repo cond data) ++
      [x1] ++ (Q ++ [b2] ++ R2 ++ [x2] ++ S)
      = (P ++ [b1] ++ (R1.take 2 ++ contributors_updated_lines repo cond data) ++
        [x1] ++ Q) ++ [b2] ++ R2 ++ [x2] ++ S by simp]
  cases hgr : toc_group data with
  | error e =>
    have hfind2 := find_table_points_decomp (k := "table-of-content") (C := R2) (D := S)
      (by decide) hA hb2 hR2 hx2
    rw [update_toc_unfold hfind2, hgr]
  | ok g =>
    rw [toc_update_decomp hA hb2 hR2 hx2 hgr]

/-! ## Computing `strip_regions` on decomposed files -/

theorem strip_aux_outside_skip {PP : List String}
    (h : ∀ l ∈ PP, strIn CONTRIBUTORS_BEGIN l = false ∧ strIn CONTENT_BEGIN l = false) :
    ∀ rest : List String,
      strip_regions_aux (PP ++ rest) .outside = PP ++ strip_regions_aux rest .outside := by
  induction PP with
  | nil => intro rest; simp
  | cons p PP ih =>
    intro rest
    have hp := h p (List.mem_cons_self p PP)
    have h' : ∀ l ∈ PP, strIn CONTRIBUTORS_BEGIN l = false ∧ strIn CONTENT_BEGIN l = false :=
      fun l hl => h l (List.mem_cons_of_mem p hl)
    simp only [List.cons_append, strip_regions_aux, hp.1, hp.2, Bool.false_eq_true,
      if_false, List.append_eq]
    rw [ih h']

theorem strip_aux_contrib_skip {C : List String}
    (h : ∀ l ∈ C, strIn CONTRIBUTORS_END l = false) :
    ∀ rest : List String,
      strip_regions_aux (C ++ rest) .inContributors =
        strip_regions_aux rest .inContributors := by
  induction C with
  | nil => intro rest; simp
  | cons c C ih =>
    intro rest
    have hc := h c (List.mem_cons_self c C)
    have h' : ∀ l ∈ C, strIn CONTRIBUTORS_END l = false :=
      fun l hl => h l (List.mem_cons_of_mem c hl)
    simp only [List.cons_append, strip_regions_aux, hc, Bool.false_eq_true, if_false,
      List.append_eq]
    exact ih h' rest

theorem strip_aux_content_skip {D : List String}
    (h : ∀ l ∈ D, strIn CONTENT_END l = false) :
    ∀ rest : List String,
      strip_regions_aux (D ++ rest) .inContent = strip_regions_aux rest .inContent := by
  induction D with
  | nil => intro rest; simp
  | cons d D ih =>
    intro rest
    have hd := h d (List.mem_cons_self d D)
    have h' : ∀ l ∈ D, strIn CONTENT_END l = false :=
      fun l hl => h l (List.mem_cons_of_mem d hl)
    simp only [List.cons_append, strip_regions_aux, hd, Bool.false_eq_true, if_false,
      List.append_eq]
    exact ih h' rest

theorem strip_step_cb {l : String} (h : strIn CONTRIBUTORS_BEGIN l = true)
    (ls : List String) :
    strip_regions_aux (l :: ls) .outside = l :: strip_regions_aux ls .inContributors := by
  simp [strip_regions_aux, h]

theorem strip_step_ce {l : String} (h : strIn CONTRIBUTORS_END l = true)
    (ls : List String) :
    strip_regions_aux (l :: ls) .inContributors = l :: strip_regions_aux ls .outside := by
  simp [strip_regions_aux, h]

theorem strip_step_tb {l : String} (h1 : strIn CONTRIBUTORS_BEGIN l = false)
    (h2 : strIn CONTENT_BEGIN l = true) (ls : List String) :
    strip_regions_aux (l :: ls) .outside = l :: strip_regions_aux ls .inContent := by
  simp [strip_regions_aux, h1, h2]

theorem strip_step_te {l : String} (h : strIn CONTENT_END l = true)
    (ls : List String) :
    strip_regions_aux (l :: ls) .inContent = l :: strip_regions_aux ls .outside := by
  simp [strip_regions_aux, h]

/-- `strip_regions` on a file made of two well-formed marked regions erases
exactly the region interiors. -/
theorem strip_regions_decomp
    {P : List String} {b1 : String} {C : List String} {x1 : String} {Q : List String}
    {b2 : String} {D : List String} {x2 : String} {S : List String}
    (hP : ∀ l ∈ P, strIn CONTRIBUTORS_BEGIN l = false ∧ strIn CONTENT_BEGIN l = false)
    (hb1 : strIn CONTRIBUTORS_BEGIN b1 = true)
    (hC : ∀ l ∈ C, strIn CONTRIBUTORS_END l = false)
    (hx1 : strIn CONTRIBUTORS_END x1 = true)
    (hQ : ∀ l ∈ Q, strIn CONTRIBUTORS_BEGIN l = false ∧ strIn CONTENT_BEGIN l = false)
    (hb2 : strIn CONTRIBUTORS_BEGIN b2 = false ∧ strIn CONTENT_BEGIN b2 = true)
    (hD : ∀ l ∈ D, strIn CONTENT_END l = false)
    (hx2 : strIn CONTENT_END x2 = true)
    (hS : ∀ l ∈ S, strIn CONTRIBUTORS_BEGIN l = false ∧ strIn CONTENT_BEGIN l = false) :
    strip_regions (P ++ [b1] ++ C ++ [x1] ++ Q ++ [b2] ++ D ++ [x2] ++ S) =
      P ++ [b1] ++ [x1] ++ Q ++ [b2] ++ [x2] ++ S := by
  unfold strip_regions
  rw [show P ++ [b1] ++ C ++ [x1] ++ Q ++ [b2] ++ D ++ [x2] ++ S
      = P ++ (b1 :: (C ++ (x1 :: (Q ++ (b2 :: (D ++ (x2 :: (S ++ [])))))))) by simp]
  rw [strip_aux_outside_skip hP]
  rw [strip_step_cb hb1]
  rw [strip_aux_contrib_skip hC]
  rw [strip_step_ce hx1]
  rw [strip_aux_outside_skip hQ]
  rw [strip_step_tb hb2.1 hb2.2]
  rw [strip_aux_content_skip hD]
  rw [strip_step_te hx2]
  rw [strip_aux_outside_skip hS]
  simp [strip_regions_aux]

/-! ## C2: the update touches only the marked regions -/

/-- C2 amended: on a file whose two marked regions are well formed (markers
on their own distinct lines, no marker text anywhere else) and whose
contributors region does not hold exactly one line, the whole update only
rewrites lines strictly between the markers: erasing both region interiors
from the input and from the output gives the same list, so every line outside
the regions, the four marker lines included, is unchanged.  (With exactly one
line between the contributors markers the script inserts the rendered rows
after the contributors end marker, which the counterexample exhibits.) -/
theorem update_rewrites_only_regions
    {P : List String} {b1 : String} {R1 : List String} {x1 : String} {Q : List String}
    {b2 : String} {R2 : List String} {x2 : String} {S : List String}
    {repo : String} {cond : Option (String → Bool)} {data : List (String × Details)}
    {M : List String}
    (hP : ∀ l ∈ P, strIn CONTRIBUTORS_BEGIN l = false ∧ strIn CONTRIBUTORS_END l = false ∧
      strIn CONTENT_BEGIN l = false ∧ strIn CONTENT_END l = false)
    (hb1 : strIn CONTRIBUTORS_BEGIN b1 = true ∧ strIn CONTENT_BEGIN b1 = false ∧
      strIn CONTENT_END b1 = false)
    (hR1 : ∀ l ∈ R1, strIn CONTRIBUTORS_END l = false ∧ strIn CONTENT_BEGIN l = false ∧
      strIn CONTENT_END l = false)
    (hx1 : strIn CONTRIBUTORS_END x1 = true ∧ strIn CONTENT_BEGIN x1 = false ∧
      strIn CONTENT_END x1 = false)
    (hQ : ∀ l ∈ Q, strIn CONTRIBUTORS_BEGIN l = false ∧ strIn CONTRIBUTORS_END l = false ∧
      strIn CONTENT_BEGIN l = false ∧ strIn CONTENT_END l = false)
    (hb2 : strIn CONTENT_BEGIN b2 = true ∧ strIn CONTRIBUTORS_BEGIN b2 = false)
    (hR2 : ∀ l ∈ R2, strIn CONTENT_END l = false)
    (hx2 : strIn CONTENT_END x2 = true)
    (hS : ∀ l ∈ S, strIn CONTRIBUTORS_BEGIN l = false ∧ strIn CONTRIBUTORS_END l = false ∧
      strIn CONTENT_BEGIN l = false ∧ strIn CONTENT_END l = false)
    (hrows : ∀ l ∈ contributors_updated_lines repo cond data,
      strIn CONTRIBUTORS_END l = false ∧ strIn CONTENT_BEGIN l = false ∧
      strIn CONTENT_END l = false)
    (htoc : ∀ g, toc_group data = .ok g →
      ∀ l ∈ toc_render (toc_sorted g) cond, strIn CONTENT_END l = false)
    (hR1len : R1.length ≠ 1)
    (hM : full_update repo cond data
      (P ++ [b1] ++ R1 ++ [x1] ++ Q ++ [b2] ++ R2 ++ [x2] ++ S) = .ok M) :
    strip_regions M =
      strip_regions (P ++ [b1] ++ R1 ++ [x1] ++ Q ++ [b2] ++ R2 ++ [x2] ++ S) := by
  have hstripL : strip_regions (P ++ [b1] ++ R1 ++ [x1] ++ Q ++ [b2] ++ R2 ++ [x2] ++ S) =
      P ++ [b1] ++ [x1] ++ Q ++ [b2] ++ [x2] ++ S :=
    strip_regions_decomp (fun l hl => ⟨(hP l hl).1, (hP l hl).2.2.1⟩) hb1.1
      (fun l hl => (hR1 l hl).1) hx1.1 (fun l hl => ⟨(hQ l hl).1, (hQ l hl).2.2.1⟩)
      ⟨hb2.2, hb2.1⟩ hR2 hx2 (fun l hl => ⟨(hS l hl).1, (hS l hl).2.2.1⟩)
  have hcases : R1 = [] ∨ 2 ≤ R1.length := by
    cases R1 with
    | nil => exact Or.inl rfl
    | cons a t =>
      cases t with
      | nil => exact absurd rfl hR1len
      | cons c t' =>
        right
        simp only [List.length_cons]
        omega
  rcases hcases with hnil | hlen
  · subst hnil
    rw [show P ++ [b1] ++ ([] : List String) ++ [x1] ++ Q ++ [b2] ++ R2 ++ [x2] ++ S
        = P ++ [b1] ++ [x1] ++ Q ++ [b2] ++ R2 ++ [x2] ++ S by simp] at hM
    rw [full_update_match_nil hP hb1 hx1 (fun l hl => (hQ l hl).2.2) hb2.1 hR2 hx2
      (fun l hl => (hrows l hl).2)] at hM
    cases hgr : toc_group data with
    | error e => rw [hgr] at hM; exact absurd hM (by simp)
    | ok g =>
      rw [hgr] at hM
      have hM' := Except.ok.inj hM
      rw [← hM']
      have hstripM := strip_regions_decomp
        (C := table_header cond ++ contributors_updated_lines repo cond data)
        (D := toc_render (toc_sorted g) cond)
        (fun l hl => ⟨(hP l hl).1, (hP l hl).2.2.1⟩) hb1.1
        (List.forall_mem_append.mpr ⟨fun l hl => (table_header_clean cond l hl).1,
          fun l hl => (hrows l hl).1⟩)
        hx1.1 (fun l hl => ⟨(hQ l hl).1, (hQ l hl).2.2.1⟩)
        ⟨hb2.2, hb2.1⟩ (htoc g hgr) hx2
        (fun l hl => ⟨(hS l hl).1, (hS l hl).2.2.1⟩)
      rw [hstripM, hstripL]
  · rw [full_update_match_big hP hb1 hR1 hx1 (fun l hl => (hQ l hl).2.2) hb2.1 hR2 hx2
      (fun l hl => (hrows l hl).2) hlen] at hM
    cases hgr : toc_group data with
    | error e => rw [hgr] at hM; exact absurd hM (by simp)
    | ok g =>
      rw [hgr] at hM
      have hM' := Except.ok.inj hM
      rw [← hM']
      have hstripM := strip_regions_decomp
        (C := R1.take 2 ++ contributors_updated_lines repo cond data)
        (D := toc_render (toc_sorted g) cond)
        (fun l hl => ⟨(hP l hl).1, (hP l hl).2.2.1⟩) hb1.1
        (List.forall_mem_append.mpr
          ⟨fun l hl => (hR1 l (List.take_subset _ _ hl)).1,
           fun l hl => (hrows l hl).1⟩)
        hx1.1 (fun l hl => ⟨(hQ l hl).1, (hQ l hl).2.2.1⟩)
        ⟨hb2.2, hb2.1⟩ (htoc g hgr) hx2
        (fun l hl => ⟨(hS l hl).1, (hS l hl).2.2.1⟩)
      rw [hstripM, hstripL]

/-- Witness for C2 amended: a concrete file with an empty contributors
region, the empty log and no filter. -/
theorem update_rewrites_only_regions_witness :
    strip_regions
      ["intro\n",
       "<!-- TABLE OF CONTRIBUTORS BEGINS -->\n",
       "| Contribution Title | Core Contribution | Contributor Names | Pull Requests | Demo |\n",
       "| --- | --- | --- | --- | --- |\n",
       "| - | - | - | - | - |\n",
       "<!-- TABLE OF CONTRIBUTORS ENDS -->\n",
       "mid\n",
       "<!-- TABLE OF CONTENT BEGINS -->\n",
       "- [__Theory__](Theory \"goto Theory\")\n",
       "- [__Solved-Problems__](Solved-Problems \"goto Solved-Problems\")\n",
       "<!-- TABLE OF CONTENT ENDS -->\n",
       "tail\n"] =
    strip_regions
      (["intro\n"] ++ ["<!-- TABLE OF CONTRIBUTORS BEGINS -->\n"] ++ [] ++
       ["<!-- TABLE OF CONTRIBUTORS ENDS -->\n"] ++ ["mid\n"] ++
       ["<!-- TABLE OF CONTENT BEGINS -->\n"] ++ [] ++
       ["<!-- TABLE OF CONTENT ENDS -->\n"] ++ ["tail\n"]) := by
  exact @update_rewrites_only_regions
    ["intro\n"] "<!-- TABLE OF CONTRIBUTORS BEGINS -->\n" []
    "<!-- TABLE OF CONTRIBUTORS ENDS -->\n" ["mid\n"]
    "<!-- TABLE OF CONTENT BEGINS -->\n" []
    "<!-- TABLE OF CONTENT ENDS -->\n" ["tail\n"]
    "r" none []
    (["intro\n",
       "<!-- TABLE OF CONTRIBUTORS BEGINS -->\n",
       "| Contribution Title | Core Contribution | Contributor Names | Pull Requests | Demo |\n",
       "| --- | --- | --- | --- | --- |\n",
       "| - | - | - | - | - |\n",
       "<!-- TABLE OF CONTRIBUTORS ENDS -->\n",
       "mid\n",
       "<!-- TABLE OF CONTENT BEGINS -->\n",
       "- [__Theory__](Theory \"goto Theory\")\n",
       "- [__Solved-Problems__](Solved-Problems \"goto Solved-Problems\")\n",
       "<!-- TABLE OF CONTENT ENDS -->\n",
       "tail\n"])
    (by decide) (by decide) (by decide) (by decide) (by decide) (by decide)
    (by decide) (by decide) (by decide) (by decide)
    (by intro g hg
        have hg' := Except.ok.inj hg
        rw [← hg']
        decide)
    (by decide) (by decide)

/-- C2 counterexample: with exactly one line between the contributors
markers, the update writes the rendered placeholder row after the
contributors end marker, outside both regions, so the file with region
interiors erased changes.  The two marker pairs of the input are well formed
(both searches succeed with begin strictly before end). -/
theorem update_rewrites_only_regions_counterexample :
    find_table_points
      ["<!-- TABLE OF CONTRIBUTORS BEGINS -->\n", "stale\n",
       "<!-- TABLE OF CONTRIBUTORS ENDS -->\n",
       "<!-- TABLE OF CONTENT BEGINS -->\n", "<!-- TABLE OF CONTENT ENDS -->\n"]
      "contributors" = .ok (0, 2) ∧
    find_table_points
      ["<!-- TABLE OF CONTRIBUTORS BEGINS -->\n", "stale\n",
       "<!-- TABLE OF CONTRIBUTORS ENDS -->\n",
       "<!-- TABLE OF CONTENT BEGINS -->\n", "<!-- TABLE OF CONTENT ENDS -->\n"]
      "table-of-content" = .ok (3, 4) ∧
    full_update "r" none []
      ["<!-- TABLE OF CONTRIBUTORS BEGINS -->\n", "stale\n",
       "<!-- TABLE OF CONTRIBUTORS ENDS -->\n",
       "<!-- TABLE OF CONTENT BEGINS -->\n", "<!-- TABLE OF CONTENT ENDS -->\n"] =
      .ok ["<!-- TABLE OF CONTRIBUTORS BEGINS -->\n", "stale\n",
           "<!-- TABLE OF CONTRIBUTORS ENDS -->\n",
           "| - | - | - | - | - |\n",
           "<!-- TABLE OF CONTENT BEGINS -->\n",
           "- [__Theory__](Theory \"goto Theory\")\n",
           "- [__Solved-Problems__](Solved-Problems \"goto Solved-Problems\")\n",
           "<!-- TABLE OF CONTENT ENDS -->\n"] ∧
    strip_regions
      ["<!-- TABLE OF CONTRIBUTORS BEGINS -->\n", "stale\n",
       "<!-- TABLE OF CONTRIBUTORS ENDS -->\n",
       "| - | - | - | - | - |\n",
       "<!-- TABLE OF CONTENT BEGINS -->\n",
       "- [__Theory__](Theory \"goto Theory\")\n",
       "- [__Solved-Problems__](Solved-Problems \"goto Solved-Problems\")\n",
       "<!-- TABLE OF CONTENT ENDS -->\n"] ≠
    strip_regions
      ["<!-- TABLE OF CONTRIBUTORS BEGINS -->\n", "stale\n",
       "<!-- TABLE OF CONTRIBUTORS ENDS -->\n",
       "<!-- TABLE OF CONTENT BEGINS -->\n", "<!-- TABLE OF CONTENT ENDS -->\n"] := by
  refine ⟨by decide, by decide, by decide, by decide⟩

/-! ## C1: idempotence of the whole update -/

/-- C1 amended: on a file whose two marked regions are well formed and whose
contributors region does not hold exactly one line, running the whole update
a second time with the same log, repository name and filter reproduces the
first output byte for byte.  (With exactly one line between the contributors
markers each run inserts a fresh copy of the rendered rows after the
contributors end marker, which the counterexample exhibits.) -/
theorem full_update_idempotent
    {P : List String} {b1 : String} {R1 : List String} {x1 : String} {Q : List String}
    {b2 : String} {R2 : List String} {x2 : String} {S : List String}
    {repo : String} {cond : Option (String → Bool)} {data : List (String × Details)}
    {M : List String}
    (hP : ∀ l ∈ P, strIn CONTRIBUTORS_BEGIN l = false ∧ strIn CONTRIBUTORS_END l = false ∧
      strIn CONTENT_BEGIN l = false ∧ strIn CONTENT_END l = false)
    (hb1 : strIn CONTRIBUTORS_BEGIN b1 = true ∧ strIn CONTENT_BEGIN b1 = false ∧
      strIn CONTENT_END b1 = false)
    (hR1 : ∀ l ∈ R1, strIn CONTRIBUTORS_END l = false ∧ strIn CONTENT_BEGIN l = false ∧
      strIn CONTENT_END l = false)
    (hx1 : strIn CONTRIBUTORS_END x1 = true ∧ strIn CONTENT_BEGIN x1 = false ∧
      strIn CONTENT_END x1 = false)
    (hQ : ∀ l ∈ Q, strIn CONTRIBUTORS_BEGIN l = false ∧ strIn CONTRIBUTORS_END l = false ∧
      strIn CONTENT_BEGIN l = false ∧ strIn CONTENT_END l = false)
    (hb2 : strIn CONTENT_BEGIN b2 = true ∧ strIn CONTRIBUTORS_BEGIN b2 = false)
    (hR2 : ∀ l ∈ R2, strIn CONTENT_END l = false)
    (hx2 : strIn CONTENT_END x2 = true)
    (hS : ∀ l ∈ S, strIn CONTRIBUTORS_BEGIN l = false ∧ strIn CONTRIBUTORS_END l = false ∧
      strIn CONTENT_BEGIN l = false ∧ strIn CONTENT_END l = false)
    (hrows : ∀ l ∈ contributors_updated_lines repo cond data,
      strIn CONTRIBUTORS_END l = false ∧ strIn CONTENT_BEGIN l = false ∧
      strIn CONTENT_END l = false)
    (htoc : ∀ g, toc_group data = .ok g →
      ∀ l ∈ toc_render (toc_sorted g) cond, strIn CONTENT_END l = false)
    (hR1len : R1.length ≠ 1)
    (hM : full_update repo cond data
      (P ++ [b1] ++ R1 ++ [x1] ++ Q ++ [b2] ++ R2 ++ [x2] ++ S) = .ok M) :
    full_update repo cond data M = .ok M := by
  have hcases : R1 = [] ∨ 2 ≤ R1.length := by
    cases R1 with
    | nil => exact Or.inl rfl
    | cons a t =>
      cases t with
      | nil => exact absurd rfl hR1len
      | cons c t' =>
        right
        simp only [List.length_cons]
        omega
  rcases hcases with hnil | hlen
  · subst hnil
    rw [show P ++ [b1] ++ ([] : List String) ++ [x1] ++ Q ++ [b2] ++ R2 ++ [x2] ++ S
        = P ++ [b1] ++ [x1] ++ Q ++ [b2] ++ R2 ++ [x2] ++ S by simp] at hM
    rw [full_update_match_nil hP hb1 hx1 (fun l hl => (hQ l hl).2.2) hb2.1 hR2 hx2
      (fun l hl => (hrows l hl).2)] at hM
    cases hgr : toc_group data with
    | error e => rw [hgr] at hM; exact absurd hM (by simp)
    | ok g =>
      rw [hgr] at hM
      have hM' := Except.ok.inj hM
      rw [← hM']
      rw [full_update_match_big hP hb1
        (List.forall_mem_append.mpr ⟨fun l hl => table_header_clean cond l hl,
          fun l hl => hrows l hl⟩)
        hx1 (fun l hl => (hQ l hl).2.2) hb2.1 (htoc g hgr) hx2
        (fun l hl => (hrows l hl).2)
        (by simp [table_header_length])]
      rw [hgr]
      rw [List.take_left' (table_header_length cond)]
  · rw [full_update_match_big hP hb1 hR1 hx1 (fun l hl => (hQ l hl).2.2) hb2.1 hR2 hx2
      (fun l hl => (hrows l hl).2) hlen] at hM
    cases hgr : toc_group data with
    | error e => rw [hgr] at hM; exact absurd hM (by simp)
    | ok g =>
      rw [hgr] at hM
      have hM' := Except.ok.inj hM
      rw [← hM']
      have htk : (R1.take 2).length = 2 := by
        rw [List.length_take]
        omega
      rw [full_update_match_big hP hb1
        (List.forall_mem_append.mpr ⟨fun l hl => hR1 l (List.take_subset _ _ hl),
          fun l hl => hrows l hl⟩)
        hx1 (fun l hl => (hQ l hl).2.2) hb2.1 (htoc g hgr) hx2
        (fun l hl => (hrows l hl).2)
        (by simp [htk])]
      rw [hgr]
      rw [List.take_left' htk]

/-- Witness for C1 amended: the concrete well-formed file of the C2 witness;
its first update output is a fixed point of the update. -/
theorem full_update_idempotent_witness :
    full_update "r" none []
      ["intro\n",
       "<!-- TABLE OF CONTRIBUTORS BEGINS -->\n",
       "| Contribution Title | Core Contribution | Contributor Names | Pull Requests | Demo |\n",
       "| --- | --- | --- | --- | --- |\n",
       "| - | - | - | - | - |\n",
       "<!-- TABLE OF CONTRIBUTORS ENDS -->\n",
       "mid\n",
       "<!-- TABLE OF CONTENT BEGINS -->\n",
       "- [__Theory__](Theory \"goto Theory\")\n",
       "- [__Solved-Problems__](Solved-Problems \"goto Solved-Problems\")\n",
       "<!-- TABLE OF CONTENT ENDS -->\n",
       "tail\n"] =
    .ok ["intro\n",
       "<!-- TABLE OF CONTRIBUTORS BEGINS -->\n",
       "| Contribution Title | Core Contribution | Contributor Names | Pull Requests | Demo |\n",
       "| --- | --- | --- | --- | --- |\n",
       "| - | - | - | - | - |\n",
       "<!-- TABLE OF CONTRIBUTORS ENDS -->\n",
       "mid\n",
       "<!-- TABLE OF CONTENT BEGINS -->\n",
       "- [__Theory__](Theory \"goto Theory\")\n",
       "- [__Solved-Problems__](Solved-Problems \"goto Solved-Problems\")\n",
       "<!-- TABLE OF CONTENT ENDS -->\n",
       "tail\n"] := by
  exact @full_update_idempotent
    ["intro\n"] "<!-- TABLE OF CONTRIBUTORS BEGINS -->\n" []
    "<!-- TABLE OF CONTRIBUTORS ENDS -->\n" ["mid\n"]
    "<!-- TABLE OF CONTENT BEGINS -->\n" []
    "<!-- TABLE OF CONTENT ENDS -->\n" ["tail\n"]
    "r" none []
    ["intro\n",
       "<!-- TABLE OF CONTRIBUTORS BEGINS -->\n",
       "| Contribution Title | Core Contribution | Contributor Names | Pull Requests | Demo |\n",
       "| --- | --- | --- | --- | --- |\n",
       "| - | - | - | - | - |\n",
       "<!-- TABLE OF CONTRIBUTORS ENDS -->\n",
       "mid\n",
       "<!-- TABLE OF CONTENT BEGINS -->\n",
       "- [__Theory__](Theory \"goto Theory\")\n",
       "- [__Solved-Problems__](Solved-Problems \"goto Solved-Problems\")\n",
       "<!-- TABLE OF CONTENT ENDS -->\n",
       "tail\n"]
    (by decide) (by decide) (by decide) (by decide) (by decide) (by decide)
    (by decide) (by decide) (by decide) (by decide)
    (by intro g hg
        have hg' := Except.ok.inj hg
        rw [← hg']
        decide)
    (by decide) (by decide)

/-- C1 counterexample: with exactly one line between the contributors
markers (a well-formed file: both marker searches succeed with begin before
end), each run inserts a fresh placeholder row after the contributors end
marker, so the second output differs from the first. -/
theorem full_update_idempotent_counterexample :
    full_update "r" none []
      ["<!-- TABLE OF CONTRIBUTORS BEGINS -->\n", "stale\n",
       "<!-- TABLE OF CONTRIBUTORS ENDS -->\n",
       "<!-- TABLE OF CONTENT BEGINS -->\n", "<!-- TABLE OF CONTENT ENDS -->\n"] =
      .ok ["<!-- TABLE OF CONTRIBUTORS BEGINS -->\n", "stale\n",
           "<!-- TABLE OF CONTRIBUTORS ENDS -->\n",
           "| - | - | - | - | - |\n",
           "<!-- TABLE OF CONTENT BEGINS -->\n",
           "- [__Theory__](Theory \"goto Theory\")\n",
           "- [__Solved-Problems__](Solved-Problems \"goto Solved-Problems\")\n",
           "<!-- TABLE OF CONTENT ENDS -->\n"] ∧
    full_update "r" none []
      ["<!-- TABLE OF CONTRIBUTORS BEGINS -->\n", "stale\n",
       "<!-- TABLE OF CONTRIBUTORS ENDS -->\n",
       "| - | - | - | - | - |\n",
       "<!-- TABLE OF CONTENT BEGINS -->\n",
       "- [__Theory__](Theory \"goto Theory\")\n",
       "- [__Solved-Problems__](Solved-Problems \"goto Solved-Problems\")\n",
       "<!-- TABLE OF CONTENT ENDS -->\n"] =
      .ok ["<!-- TABLE OF CONTRIBUTORS BEGINS -->\n", "stale\n",
           "<!-- TABLE OF CONTRIBUTORS ENDS -->\n",
           "| - | - | - | - | - |\n",
           "| - | - | - | - | - |\n",
           "<!-- TABLE OF CONTENT BEGINS -->\n",
           "- [__Theory__](Theory \"goto Theory\")\n",
           "- [__Solved-Problems__](Solved-Problems \"goto Solved-Problems\")\n",
           "<!-- TABLE OF CONTENT ENDS -->\n"] ∧
    (["<!-- TABLE OF CONTRIBUTORS BEGINS -->\n", "stale\n",
      "<!-- TABLE OF CONTRIBUTORS ENDS -->\n",
      "| - | - | - | - | - |\n",
      "| - | - | - | - | - |\n",
      "<!-- TABLE OF CONTENT BEGINS -->\n",
      "- [__Theory__](Theory \"goto Theory\")\n",
      "- [__Solved-Problems__](Solved-Problems \"goto Solved-Problems\")\n",
      "<!-- TABLE OF CONTENT ENDS -->\n"] :
      List String) ≠
    ["<!-- TABLE OF CONTRIBUTORS BEGINS -->\n", "stale\n",
     "<!-- TABLE OF CONTRIBUTORS ENDS -->\n",
     "| - | - | - | - | - |\n",
     "<!-- TABLE OF CONTENT BEGINS -->\n",
     "- [__Theory__](Theory \"goto Theory\")\n",
     "- [__Solved-Problems__](Solved-Problems \"goto Solved-Problems\")\n",
     "<!-- TABLE OF CONTENT ENDS -->\n"] := by
  refine ⟨by decide, by decide, by decide⟩
